import Mathlib

/-!
# Two-channel TCP file transfer (`client_tcp.c`, `server_tcp.c`)

A shallow embedding of the client and the server of the repository and the
properties of its protocol: the control-frame exchange, the retry connector,
the command dispatch and the file stream.

Conventions of the embedding.

* A byte is a natural number (`Nat`); `0` is the C string terminator, `10` the
  newline.
* A connected socket, seen from the reading side, is the queue of what is
  still to arrive on it (`Sock`): segments of bytes and failures. The empty
  queue is a peer that has closed: every further `recv` returns `0`.
* A loop of the source that can run forever takes a bound on the number of
  iterations and reports `looping` with the state it is in when the bound is
  reached; `returned` is a normal exit of the loop.
* `int` variables that only hold small counts (`n`, `bytes_to_read`) are
  integers; the back-off counter of `connect_with_retry`, which the source
  increments without limit, is a 32-bit two's complement `int`.
-/

namespace EchoTcp

/-! ## Constants -/

def SERVER_CONTROL_CHANNEL_PORT : Nat := 7005
def CLIENT_CONTROL_CHANNEL_PORT : Nat := 4611
def SERVER_DATA_CHANNEL_PORT : Nat := 7006
def CLIENT_DATA_CHANNEL_PORT : Nat := 4612

def REQ_BUFLEN : Nat := 80
def FILE_BUFLEN : Nat := 1024

/-- The literal `"GET"` as it lies in memory, terminator included. -/
def GET_COMMAND_NAME : List Nat := [71, 69, 84, 0]
/-- The literal `"SEND"` as it lies in memory, terminator included. -/
def SEND_COMMAND_NAME : List Nat := [83, 69, 78, 68, 0]
def SEND_FILE_NAME : String := "send.txt"
def GET_FILE_NAME : String := "get.txt"

def DEFAULT_SLEEP_TIME : Int := 1

/-! ## Sockets -/

/-- What can arrive next on a connected socket: bytes that arrive together,
or a failure of the next `recv`. -/
inductive Event where
  | seg (bytes : List Nat)
  | err
  deriving DecidableEq

/-- The reading side of a connected socket: the events still to come. The
empty queue is a closed peer. -/
abbrev Sock := List Event

/-- All the bytes still to arrive on a socket, in order. -/
def stream : Sock → List Nat
  | [] => []
  | .seg bs :: rest => bs ++ stream rest
  | .err :: rest => stream rest

/-- No `recv` on this socket fails. -/
def NoErr (s : Sock) : Prop := ∀ e ∈ s, e ≠ Event.err

instance (s : Sock) : Decidable (NoErr s) := by
  unfold NoErr; infer_instance

/-- The result of one `recv`: the value returned, the bytes copied to the
buffer and the socket afterwards. -/
structure RecvOut where
  n : Int
  data : List Nat
  sock : Sock
  deriving DecidableEq

/-- An `int` length passed where `recv` takes a `size_t`. -/
def size_t (x : Int) : Nat := (x % 2 ^ 64).toNat

/-- The call `recv (sock, buf, len, 0)` on a blocking stream socket: `-1` on a
failure, `0` once the peer has closed, otherwise at most `len` bytes of the
segment at the head of the queue; what it leaves of the segment stays
queued. -/
def recv (sock : Sock) (len : Int) : RecvOut :=
  match sock with
  | [] => ⟨0, [], []⟩
  | .err :: rest => ⟨-1, [], rest⟩
  | .seg bs :: rest =>
    let k := min (size_t len) bs.length
    ⟨(k : Int), bs.take k, if bs.length ≤ k then rest else .seg (bs.drop k) :: rest⟩

/-- The bytes `send (sock, buf, len, 0)` puts on the wire when it sends in
full. -/
def send (buf : List Nat) (len : Nat) : List Nat := buf.take len

/-- The array `buf` after `data` has been copied to it from offset `off` on
(bytes that fall outside the array are not kept). -/
def store (buf : List Nat) (off : Int) (data : List Nat) : List Nat :=
  (List.range buf.length).map fun (i : Nat) =>
    if off ≤ (i : Int) ∧ (i : Int) < off + (data.length : Int) then
      data.getD ((i : Int) - off).toNat 0
    else buf.getD i 0

/-! ## The control frame -/

/-- One call of `recv` made by a control-frame read loop: where it stores,
how much it asks for, what it returns. -/
structure RecvCall where
  off : Int
  len : Int
  n : Int
  deriving DecidableEq

/-- The variables of the control-frame read loop: the 80-byte array, the
pointer into it (`bp`, `request`) as an offset from the array, `bytes_to_read`,
`n`, the socket, and what a watcher sees: the calls made and whether a
call stored outside the array. -/
structure FrameRead where
  buf : List Nat
  off : Int
  bytes_to_read : Int
  n : Int
  sock : Sock
  calls : List RecvCall
  oob : Bool
  deriving DecidableEq

/-- A run of a function around a loop that may go on for ever: it returned
`r`, or it is still in the loop, in state `st`, after the number of
iterations allowed. -/
inductive Outcome (ρ σ : Type) where
  | returned (r : ρ)
  | looping (st : σ)

/-- The variables on entry of the loop: `bp = ack_request`,
`bytes_to_read = REQ_BUFLEN`. -/
def frame_init (ack_request : List Nat) (sock : Sock) : FrameRead :=
  { buf := ack_request, off := 0, bytes_to_read := (REQ_BUFLEN : Int), n := 0,
    sock := sock, calls := [], oob := false }

/-- The assignment `n = recv (sock, bp, bytes_to_read, 0)` of the loop
condition. -/
def frame_recv (st : FrameRead) : FrameRead :=
  let r := recv st.sock st.bytes_to_read
  { st with
    n := r.n
    buf := store st.buf st.off r.data
    sock := r.sock
    calls := st.calls ++ [⟨st.off, st.bytes_to_read, r.n⟩]
    oob := st.oob ||
      decide (r.data ≠ [] ∧ (st.off < 0 ∨ (st.buf.length : Int) < st.off + r.data.length)) }

/-- The loop body: `bp += n; bytes_to_read -= n;`. -/
def frame_advance (st : FrameRead) : FrameRead :=
  { st with off := st.off + st.n, bytes_to_read := st.bytes_to_read - st.n }

/-- The loop
`while ((n = recv (sock, bp, bytes_to_read, 0)) < REQ_BUFLEN) { bp += n; bytes_to_read -= n; }`
of `send_request` and of `receive_client_request`, for at most `fuel`
evaluations of its condition. -/
def recv_frame : Nat → FrameRead → Outcome FrameRead FrameRead
  | 0, st => .looping st
  | fuel + 1, st =>
    let st1 := frame_recv st
    if st1.n < (REQ_BUFLEN : Int) then recv_frame fuel (frame_advance st1)
    else .returned st1

/-- What `receive_client_request` leaves: the array, the bytes it sent as the
acknowledgment, the calls of `recv` it made. -/
structure ServerAck where
  ack_request : List Nat
  sent : List Nat
  calls : List RecvCall
  oob : Bool
  closed : Bool
  deriving DecidableEq

/-- The server's `receive_client_request (ack_request, client_socket)`: read
loop, `send (client_socket, ack_request, REQ_BUFLEN, 0)`, `close`. -/
def receive_client_request (fuel : Nat) (ack_request : List Nat) (client_socket : Sock) :
    Outcome ServerAck FrameRead :=
  match recv_frame fuel (frame_init ack_request client_socket) with
  | .looping st => .looping st
  | .returned st =>
    .returned { ack_request := st.buf, sent := send st.buf REQ_BUFLEN, calls := st.calls,
                oob := st.oob, closed := true }

/-- What `send_request` leaves: the bytes it sent, the acknowledgment array,
the value of `bytes_to_read` it prints, the calls of `recv` it made. -/
structure ClientAck where
  sent : List Nat
  ack_request : List Nat
  bytes_to_read : Int
  calls : List RecvCall
  oob : Bool
  closed : Bool
  deriving DecidableEq

/-- The client's `send_request (client_socket, request, ack_request)`:
`send (client_socket, request, REQ_BUFLEN, 0)`, read loop, `close`. -/
def send_request (fuel : Nat) (request ack_request : List Nat) (client_socket : Sock) :
    Outcome ClientAck FrameRead :=
  match recv_frame fuel (frame_init ack_request client_socket) with
  | .looping st => .looping st
  | .returned st =>
    .returned { sent := send request REQ_BUFLEN, ack_request := st.buf,
                bytes_to_read := st.bytes_to_read, calls := st.calls, oob := st.oob,
                closed := true }

/-- The bytes the calls of `recv` of a read loop returned in total (a failed
call returns none). -/
def received (calls : List RecvCall) : Nat := (calls.map fun c => c.n.toNat).sum

/-- A request frame as the client's `main` builds it for `GET`: the command
string, then whatever the array held (here blanks). -/
def get_request : List Nat := GET_COMMAND_NAME ++ List.replicate 76 32

/-- An 80-byte array of zero bytes. -/
def blank_frame : List Nat := List.replicate 80 0

/-! ## C strings and the command dispatch -/

/-- The C string that starts at the head of `buf`: the bytes before the first
zero byte. -/
def cstr (buf : List Nat) : List Nat := buf.takeWhile (· ≠ 0)

/-- The call `strcmp (a, b)` on two strings given as the memory from their
first byte on: zero when they are equal up to and including the terminator,
otherwise the difference of the first two bytes that differ. Memory past the
end of a list reads as a terminator. -/
def strcmp : List Nat → List Nat → Int
  | [], [] => 0
  | [], b :: _ => -(b : Int)
  | a :: _, [] => (a : Int)
  | a :: as, b :: bs =>
    if a ≠ b then (a : Int) - (b : Int) else if a = 0 then 0 else strcmp as bs

/-! ## The retry connector -/

/-- A value stored in a 32-bit two's complement `int`. -/
def int32 (x : Int) : Int := (x + 2147483648) % 4294967296 - 2147483648

/-- An `int` passed where `sleep` takes an `unsigned int`. -/
def uint32 (x : Int) : Nat := (x % 4294967296).toNat

/-- The variables of `connect_with_retry` and what a watcher sees of it: the
number of calls of `connect` made and the durations slept, in order. -/
structure Retry where
  attempts : Nat
  sleeps : List Nat
  sleep_time : Int
  interval : Int
  deriving DecidableEq

/-- The loop `while (NOT_CONNECTED)` of `connect_with_retry`, for at most
`fuel` calls of `connect`; `connect i` tells whether the call number `i`
(from 0) succeeds. A failed call is followed by `sleep (sleep_time)` and
`sleep_time += interval`, a successful one by `break`. -/
def connect_loop (connect : Nat → Bool) : Nat → Retry → Outcome Retry Retry
  | 0, st => .looping st
  | fuel + 1, st =>
    if connect st.attempts = false then
      connect_loop connect fuel
        { st with
          attempts := st.attempts + 1
          sleeps := st.sleeps ++ [uint32 st.sleep_time]
          sleep_time := int32 (st.sleep_time + st.interval) }
    else .returned { st with attempts := st.attempts + 1 }

/-- The function `connect_with_retry` (the same text in the client and in the
server): `sleep_time = DEFAULT_SLEEP_TIME`, `interval = 1`, then the loop. -/
def connect_with_retry (connect : Nat → Bool) (fuel : Nat) : Outcome Retry Retry :=
  connect_loop connect fuel
    { attempts := 0, sleeps := [], sleep_time := DEFAULT_SLEEP_TIME, interval := 1 }

/-! ## The file stream -/

/-- The bytes one `fgets` with room for `n` characters takes from the rest of
the file: up to `n` bytes, ending after the first newline. -/
def fgets_line : Nat → List Nat → List Nat
  | 0, _ => []
  | _, [] => []
  | n + 1, b :: rest => if b = 10 then [b] else b :: fgets_line n rest

/-- The call `fgets (data, size, fp)`: `none` for `NULL` (end of file and
nothing read), otherwise the array with the line and its terminator stored
at its start, and the rest of the file. -/
def fgets (data : List Nat) (size : Nat) (fp : List Nat) : Option (List Nat × List Nat) :=
  match fp with
  | [] => none
  | _ :: _ =>
    let line := fgets_line (size - 1) fp
    some (line ++ [0] ++ data.drop (line.length + 1), fp.drop line.length)

/-- The call `bzero (buf, n)`. -/
def bzero (buf : List Nat) (n : Nat) : List Nat :=
  List.replicate (min n buf.length) 0 ++ buf.drop n

/-- The variables of `send_file` and the blocks it has handed to `send`. -/
structure SendState where
  data : List Nat
  fp : List Nat
  wire : List (List Nat)
  deriving DecidableEq

/-- What `send_file` leaves: the blocks sent, and whether it ended in
`exit (1)` on a failed `send`. -/
structure SendResult where
  blocks : List (List Nat)
  exited : Bool
  deriving DecidableEq

/-- The loop of `send_file`: `fgets` a line into `data`, `send` the whole
array (`sizeof (data)` bytes), `bzero` it; `send_ok i` tells whether the send
number `i` (from 0) succeeds. -/
def send_file_loop (send_ok : Nat → Bool) : Nat → SendState → Outcome SendResult SendState
  | 0, st => .looping st
  | fuel + 1, st =>
    match fgets st.data FILE_BUFLEN st.fp with
    | none => .returned { blocks := st.wire, exited := false }
    | some (data, fp) =>
      if send_ok st.wire.length = false then .returned { blocks := st.wire, exited := true }
      else
        send_file_loop send_ok fuel
          { data := bzero data FILE_BUFLEN, fp := fp, wire := st.wire ++ [send data FILE_BUFLEN] }

/-- The function `send_file (fp, sockfd)` (the same text in the client and in
the server) on a file just opened: `char data[FILE_BUFLEN] = {0}`, then the
loop. Every turn of the loop reads at least one byte, so one turn a byte and
one more for the end of file are allowed. -/
def send_file (send_ok : Nat → Bool) (file : List Nat) : Outcome SendResult SendState :=
  send_file_loop send_ok (file.length + 1)
    { data := List.replicate FILE_BUFLEN 0, fp := file, wire := [] }

/-- One turn of the loop of `write_file`: what `recv` returned, the bytes it
stored and the bytes `fprintf` wrote. -/
structure WriteStep where
  n : Int
  data : List Nat
  written : List Nat
  deriving DecidableEq

/-- The variables of `write_file`, the content of the file it writes, the
turns of its loop, and whether an `fprintf` found no terminator in the
array (it then reads past the array, which is not modelled). -/
structure WriteState where
  buffer : List Nat
  n : Int
  sock : Sock
  file : List Nat
  log : List WriteStep
  overrun : Bool
  deriving DecidableEq

/-- The loop of `write_file`, for at most `fuel` calls of `recv`:
`n = recv (sockfd, buffer, FILE_BUFLEN, 0)`; leave when `n <= 0`; otherwise
`fprintf (fp, "%s", buffer)`, `fflush`, `bzero (buffer, FILE_BUFLEN)`. -/
def write_file_loop : Nat → WriteState → Outcome WriteState WriteState
  | 0, st => .looping st
  | fuel + 1, st =>
    let r := recv st.sock (FILE_BUFLEN : Int)
    let buffer := store st.buffer 0 r.data
    if r.n ≤ 0 then .returned { st with n := r.n, buffer := buffer, sock := r.sock }
    else
      write_file_loop fuel
        { buffer := bzero buffer FILE_BUFLEN
          n := r.n
          sock := r.sock
          file := st.file ++ cstr buffer
          log := st.log ++ [⟨r.n, r.data, cstr buffer⟩]
          overrun := st.overrun || decide (0 ∉ buffer) }

/-- The function `write_file (sockfd)` (the client and the server differ in
the name of the file only): `buffer` holds whatever the stack held,
`fopen (filename, "w")` gives an empty file, then the loop. -/
def write_file (fuel : Nat) (buffer : List Nat) (sockfd : Sock) :
    Outcome WriteState WriteState :=
  write_file_loop fuel
    { buffer := buffer, n := 0, sock := sockfd, file := [], log := [], overrun := false }

/-- A bound on the calls of `recv` that empty a socket: one for each byte and
each event. -/
def sock_size : Sock → Nat
  | [] => 0
  | .seg bs :: rest => bs.length + 1 + sock_size rest
  | .err :: rest => 1 + sock_size rest

/-- The data connection when every block handed to `send` arrives as one
segment, after which the sender closes. -/
def deliver (blocks : List (List Nat)) : Sock := blocks.map Event.seg

/-! ## The data session -/

/-- The sockets of one peer. `data` is the data-channel socket it creates and
binds (`data_channel_socket` in the server, `client_socket` in the client),
`data_conn` the connection it accepts on it. -/
inductive Socket where
  | control_listener
  | control
  | data
  | data_conn
  deriving DecidableEq

/-- What a peer does that the other peer or the file system can see. -/
inductive Action where
  | connect (s : Socket) (port : Nat) (ok : Bool)
  | sleep (seconds : Nat)
  | listen (s : Socket) (backlog : Nat) (ok : Bool)
  | accept (s : Socket) (ok : Bool)
  | fopen (name : String) (mode : String) (ok : Bool)
  | send_file (s : Socket)
  | write_file (s : Socket)
  | close (s : Socket)
  | exit (status : Nat)
  deriving DecidableEq

/-- The files of a peer's working directory, by name. -/
abbrev Files := String → Option (List Nat)

/-- The files after `content` has been written to the file `name`. -/
def Files.write (fs : Files) (name : String) (content : List Nat) : Files :=
  fun x => if x = name then some content else fs x

/-- What the system calls of a data session answer to one peer. -/
structure Env where
  connect : Nat → Bool
  listen_ok : Bool
  accept_ok : Bool
  send_ok : Nat → Bool
  incoming : Sock
  buffer : List Nat

/-- What `process_request` leaves: what it did, the files, and the blocks it
sent on the data connection. -/
structure Proc where
  trace : List Action
  files : Files
  wire : List (List Nat)

/-- The calls a run of `connect_with_retry` on socket `s` made: a failed
`connect` and a `sleep` for each duration slept, then the `connect` that
succeeded. -/
def retry_actions (s : Socket) (port : Nat) (r : Retry) : List Action :=
  (r.sleeps.map fun d => [Action.connect s port false, Action.sleep d]).flatten ++
    [Action.connect s port true]

/-- The action is a call of `connect`. -/
def Action.is_connect : Action → Bool
  | .connect _ _ _ => true
  | _ => false

/-- The action is a call of `listen` or of `accept`. -/
def Action.is_passive : Action → Bool
  | .listen _ _ _ => true
  | .accept _ _ => true
  | _ => false

/-- The action opens a file or moves file data. -/
def Action.is_transfer : Action → Bool
  | .fopen _ _ _ => true
  | .send_file _ => true
  | .write_file _ => true
  | _ => false

namespace Server

/-- The server's `process_request (ack_request, data_channel_socket, client,
&client_socket)`; `client_port` is `client.sin_port`. `none` when a loop in it
is still running after `fuel` turns. -/
def process_request (fuel : Nat) (env : Env) (ack_request : List Nat) (client_port : Nat)
    (files : Files) : Option Proc :=
  if strcmp ack_request GET_COMMAND_NAME = 0 then
    match connect_with_retry env.connect fuel with
    | .looping _ => none
    | .returned r =>
      match files GET_FILE_NAME with
      | none =>
        some { trace := retry_actions .data client_port r ++
                 [.fopen GET_FILE_NAME "r" false, .exit 1],
               files := files, wire := [] }
      | some content =>
        match send_file env.send_ok content with
        | .looping _ => none
        | .returned s =>
          some { trace := retry_actions .data client_port r ++
                   [.fopen GET_FILE_NAME "r" true, .send_file .data,
                    if s.exited then .exit 1 else .close .data],
                 files := files, wire := s.blocks }
  else if strcmp ack_request SEND_COMMAND_NAME = 0 then
    if env.listen_ok = false then
      some { trace := [.listen .data 5 false, .exit 1], files := files, wire := [] }
    else if env.accept_ok = false then
      some { trace := [.listen .data 5 true, .accept .data false, .exit 1],
             files := files, wire := [] }
    else
      match write_file fuel env.buffer env.incoming with
      | .looping _ => none
      | .returned w =>
        some { trace := [.listen .data 5 true, .accept .data true, .fopen SEND_FILE_NAME "w" true,
                         .write_file .data_conn, .close .data_conn, .close .data],
               files := files.write SEND_FILE_NAME w.file, wire := [] }
  else some { trace := [], files := files, wire := [] }

/-- The statements `client.sin_port = htons (CLIENT_DATA_CHANNEL_PORT);
process_request (ack_request, data_channel_socket, client, &client_socket);`
of the server's `main`. -/
def main_process_request (fuel : Nat) (env : Env) (ack_request : List Nat) (files : Files) :
    Option Proc :=
  process_request fuel env ack_request CLIENT_DATA_CHANNEL_PORT files

end Server

namespace Client

/-- The client's `process_request (ack_request, client_socket, server, hp)`.
`none` when a loop in it is still running after `fuel` turns. -/
def process_request (fuel : Nat) (env : Env) (ack_request : List Nat) (files : Files) :
    Option Proc :=
  if strcmp ack_request GET_COMMAND_NAME = 0 then
    if env.listen_ok = false then
      some { trace := [.listen .data 5 false, .exit 1], files := files, wire := [] }
    else if env.accept_ok = false then
      some { trace := [.listen .data 5 true, .accept .data false, .exit 1],
             files := files, wire := [] }
    else
      match write_file fuel env.buffer env.incoming with
      | .looping _ => none
      | .returned w =>
        some { trace := [.listen .data 5 true, .accept .data true, .fopen GET_FILE_NAME "w" true,
                         .write_file .data_conn, .close .data_conn, .close .data],
               files := files.write GET_FILE_NAME w.file, wire := [] }
  else if strcmp ack_request SEND_COMMAND_NAME = 0 then
    match connect_with_retry env.connect fuel with
    | .looping _ => none
    | .returned r =>
      match files SEND_FILE_NAME with
      | none =>
        some { trace := retry_actions .data SERVER_DATA_CHANNEL_PORT r ++
                 [.fopen SEND_FILE_NAME "r" false, .exit 1],
               files := files, wire := [] }
      | some content =>
        match send_file env.send_ok content with
        | .looping _ => none
        | .returned s =>
          some { trace := retry_actions .data SERVER_DATA_CHANNEL_PORT r ++
                   [.fopen SEND_FILE_NAME "r" true, .send_file .data,
                    if s.exited then .exit 1 else .close .data],
                 files := files, wire := s.blocks }
  else some { trace := [], files := files, wire := [] }

end Client

/-- A deposit: the client's `process_request` on the acknowledged frame, then
the server's, which receives the blocks the client sent, one segment a
block. The files of the client and of the server afterwards. -/
def deposit_session (fuel : Nat) (ack_request : List Nat) (cenv senv : Env)
    (cfiles sfiles : Files) : Option (Files × Files) :=
  match Client.process_request fuel cenv ack_request cfiles with
  | none => none
  | some c =>
    match Server.main_process_request fuel { senv with incoming := deliver c.wire }
        ack_request sfiles with
    | none => none
    | some s => some (c.files, s.files)

/-- A fetch: the server's `process_request` on the acknowledged frame, then
the client's, which receives the blocks the server sent, one segment a
block. The files of the client and of the server afterwards. -/
def fetch_session (fuel : Nat) (ack_request : List Nat) (cenv senv : Env)
    (cfiles sfiles : Files) : Option (Files × Files) :=
  match Server.main_process_request fuel senv ack_request sfiles with
  | none => none
  | some s =>
    match Client.process_request fuel { cenv with incoming := deliver s.wire }
        ack_request cfiles with
    | none => none
    | some c => some (c.files, s.files)

/-- A request frame for `SEND`, built as `get_request`. -/
def send_request_frame : List Nat := SEND_COMMAND_NAME ++ List.replicate 75 32

/-- An environment in which every call succeeds at once and nothing arrives. -/
def calm : Env :=
  { connect := fun _ => true, listen_ok := true, accept_ok := true, send_ok := fun _ => true,
    incoming := [], buffer := List.replicate 1024 0 }

/-- An environment in which the first `k` calls of `connect` fail and every
other call succeeds, with `incoming` arriving on the data connection and an
array that holds whatever the stack held. -/
def late (k : Nat) (incoming : Sock) : Env :=
  { connect := fun i => decide (k ≤ i), listen_ok := true, accept_ok := true,
    send_ok := fun _ => true, incoming := incoming, buffer := List.replicate 1024 7 }

/-- A line read by `fgets` as `send_file` sends it: its bytes, then zero bytes
up to `FILE_BUFLEN`. -/
def pad (line : List Nat) : List Nat := line ++ List.replicate (FILE_BUFLEN - line.length) 0

/-- Every call the peer makes succeeds, `connect` at its call number `k`, and
the array of `write_file` has `FILE_BUFLEN` bytes. -/
def Env.cooperates (env : Env) (k : Nat) : Prop :=
  (∀ i, i < k → env.connect i = false) ∧ env.connect k = true ∧ env.listen_ok = true ∧
    env.accept_ok = true ∧ (∀ i, env.send_ok i = true) ∧ env.buffer.length = FILE_BUFLEN

/-- A request frame with a command the dispatch does not know, `PUT`. -/
def put_request : List Nat := [80, 85, 84, 0] ++ List.replicate 76 32

/-- A client directory: `send.txt` holds `a`, newline; there is no `get.txt`. -/
def client_dir : Files := fun x => if x = SEND_FILE_NAME then some [97, 10] else none

/-- A server directory: `get.txt` holds `b`, newline; there is no `send.txt`. -/
def server_dir : Files := fun x => if x = GET_FILE_NAME then some [98, 10] else none

/-- The blocks `send_file` hands to `send` for a file when every send
succeeds. -/
def sent_blocks (file : List Nat) : List (List Nat) :=
  match send_file (fun _ => true) file with
  | .returned s => s.blocks
  | .looping st => st.wire

/-- The content `write_file` has given its file when it returns; `none` when
it is still in its loop after `fuel` calls of `recv`. -/
def written (fuel : Nat) (buffer : List Nat) (sockfd : Sock) : Option (List Nat) :=
  match write_file fuel buffer sockfd with
  | .returned w => some w.file
  | .looping _ => none

/-- A deposit with the frame `send_frame`, then a fetch with the frame
`get_frame`, between the same two directories. -/
def deposit_then_fetch (fuel : Nat) (send_frame get_frame : List Nat) (cenv senv : Env)
    (cfiles sfiles : Files) : Option (Files × Files) :=
  match deposit_session fuel send_frame cenv senv cfiles sfiles with
  | none => none
  | some (c1, s1) => fetch_session fuel get_frame cenv senv c1 s1

/-- A directory in which `send.txt` and `get.txt` both hold `A`, a zero byte,
`B`. -/
def binary_dir : Files := fun x =>
  if x = SEND_FILE_NAME ∨ x = GET_FILE_NAME then some [65, 0, 66] else none

/-- The call `strcpy (dst, src)`: the string at `src`, terminator included,
over the start of the array `dst`. -/
def strcpy (dst src : List Nat) : List Nat :=
  cstr src ++ [0] ++ dst.drop ((cstr src).length + 1)

/-- The lines of the client's `main` that check `argv[2]` and build the
request: `strcpy (request, argv[2])` when `argv[2]` compares equal to `GET` or
to `SEND`, otherwise the usage message and `exit (1)` (`none`). -/
def Client.main_request (argv2 request : List Nat) : Option (List Nat) :=
  if strcmp argv2 GET_COMMAND_NAME = 0 ∨ strcmp argv2 SEND_COMMAND_NAME = 0 then
    some (strcpy request argv2)
  else none

/-- An 80-byte frame made of `GET` and 77 blanks. -/
def get_blanks : List Nat := [71, 69, 84] ++ List.replicate 77 32

/-- An 80-byte frame made of `SEND` and 76 blanks. -/
def send_blanks : List Nat := [83, 69, 78, 68] ++ List.replicate 76 32

/-! ## The wire format of a file, in the words of its description -/

/-- The first chunk of what is left of a file: the longest start of it that
has at most `FILE_BUFLEN - 1` bytes and ends right after its first newline
if there is one. -/
def spec_chunk (rest : List Nat) : List Nat :=
  let p := rest.take (FILE_BUFLEN - 1)
  if 10 ∈ p then p.take (p.indexOf 10 + 1) else p

/-- The consecutive chunks of a file, `fuel` of them at most. -/
def spec_chunks : Nat → List Nat → List (List Nat)
  | 0, _ => []
  | _, [] => []
  | fuel + 1, b :: rest =>
    spec_chunk (b :: rest) :: spec_chunks fuel ((b :: rest).drop (spec_chunk (b :: rest)).length)

/-- The blocks a file is sent as: one for each of its chunks, the chunk
followed by zero bytes up to `FILE_BUFLEN`. -/
def spec_wire (file : List Nat) : List (List Nat) := (spec_chunks file.length file).map pad

/-! ## The calls of `recv` on a data socket, in the words of the receiver's description -/

/-- The byte blocks delivered by the successive calls
`recv (sockfd, buffer, FILE_BUFLEN, 0)` that return `n > 0`, in order, up to
the first call that returns zero or less; `fuel` calls at most. -/
def positive_reads : Nat → Sock → List (List Nat)
  | 0, _ => []
  | fuel + 1, s =>
    if (recv s (FILE_BUFLEN : Int)).n ≤ 0 then []
    else (recv s (FILE_BUFLEN : Int)).data ::
      positive_reads fuel (recv s (FILE_BUFLEN : Int)).sock

/-- The first of these calls that returns zero or less: the value it returns
and the socket it leaves; `none` when the first `fuel` calls all return
`n > 0`. -/
def first_stop : Nat → Sock → Option (Int × Sock)
  | 0, _ => none
  | fuel + 1, s =>
    if (recv s (FILE_BUFLEN : Int)).n ≤ 0 then
      some ((recv s (FILE_BUFLEN : Int)).n, (recv s (FILE_BUFLEN : Int)).sock)
    else first_stop fuel (recv s (FILE_BUFLEN : Int)).sock

/-! ## The two programs and their sockets -/

/-- What a `main` does around `process_request`: the calls that create and
name a socket, the two halves of the control exchange, and the actions of
the data session. -/
inductive Step where
  | socket (s : Socket) (ok : Bool)
  | setsockopt (s : Socket) (ok : Bool)
  | bind (s : Socket) (port : Nat) (ok : Bool)
  | send_frame (s : Socket)
  | read_frame (s : Socket)
  | act (a : Action)
  deriving DecidableEq

/-- What the system calls of a whole exchange answer to one peer: `env` for
`process_request`, then the calls of `main` and of the functions it runs
before; `control_in` is what arrives on the control connection,
`ack_request` and `request` what the two arrays hold at first. -/
structure MainEnv where
  env : Env
  host_ok : Bool
  socket_ok : Socket → Bool
  setsockopt_ok : Socket → Bool
  bind_ok : Socket → Bool
  listen_ok : Bool
  control_accept_ok : Bool
  control_connect : Nat → Bool
  control_in : Sock
  ack_request : List Nat
  request : List Nat

/-- The action ends the process. -/
def Action.is_exit : Action → Bool
  | .exit _ => true
  | _ => false

/-- The step ends the process. -/
def Step.is_exit : Step → Bool
  | .act a => a.is_exit
  | _ => false

/-- The socket `accept` returns on a listening socket. -/
def accepted_on : Socket → Socket
  | .control_listener => .control
  | _ => .data_conn

/-- The open sockets after a step: `socket` and `accept`, when they succeed,
open one; `close` closes one. -/
def Step.apply (fds : List Socket) : Step → List Socket
  | .socket s true => fds ++ [s]
  | .act (.accept s true) => fds ++ [accepted_on s]
  | .act (.close s) => fds.filter (· ≠ s)
  | _ => fds

/-- The open sockets after a run of steps, from the open sockets `fds`. -/
def open_after (fds : List Socket) (steps : List Step) : List Socket :=
  steps.foldl Step.apply fds

namespace Server

/-- The server's `init_server_control_channel`: `socket`, `bind` to port 7005,
`listen`; `exit (1)` when one fails. -/
def init_server_control_channel (m : MainEnv) : List Step :=
  if m.socket_ok .control_listener = false then
    [.socket .control_listener false, .act (.exit 1)]
  else if m.bind_ok .control_listener = false then
    [.socket .control_listener true, .bind .control_listener SERVER_CONTROL_CHANNEL_PORT false,
     .act (.exit 1)]
  else if m.listen_ok = false then
    [.socket .control_listener true, .bind .control_listener SERVER_CONTROL_CHANNEL_PORT true,
     .act (.listen .control_listener 5 false), .act (.exit 1)]
  else
    [.socket .control_listener true, .bind .control_listener SERVER_CONTROL_CHANNEL_PORT true,
     .act (.listen .control_listener 5 true)]

/-- The steps of `accept_client_connection` and `receive_client_request` when
both succeed: the control connection is accepted, the frame read and echoed,
the connection closed. -/
def control_steps : List Step :=
  [.act (.accept .control_listener true), .read_frame .control, .send_frame .control,
   .act (.close .control)]

/-- One turn of the loop `while (SERVER_IS_UP)` of the server's `main`:
`accept_client_connection`, `receive_client_request`,
`init_server_data_channel`, `client.sin_port = htons (CLIENT_DATA_CHANNEL_PORT)`,
`process_request`. `none` when a loop in it is still running after `fuel`
turns. -/
def main_iteration (fuel : Nat) (m : MainEnv) (files : Files) : Option (List Step) :=
  if m.control_accept_ok = false then
    some [.act (.accept .control_listener false), .act (.exit 1)]
  else
    match receive_client_request fuel m.ack_request m.control_in with
    | .looping _ => none
    | .returned rs =>
      if m.socket_ok .data = false then
        some (control_steps ++ [.socket .data false, .act (.exit 1)])
      else if m.bind_ok .data = false then
        some (control_steps ++
          [.socket .data true, .bind .data SERVER_DATA_CHANNEL_PORT false, .act (.exit 1)])
      else
        match main_process_request fuel m.env rs.ack_request files with
        | none => none
        | some p =>
          some (control_steps ++ [.socket .data true, .bind .data SERVER_DATA_CHANNEL_PORT true] ++
            p.trace.map Step.act)

end Server

namespace Client

/-- The steps of `init_client_control_channel`, `connect_to_server` and
`send_request` when all succeed, `r` being the run of `connect_with_retry`:
the control socket is created, bound to port 4611 and connected to port 7005,
the request sent, the acknowledgment read, the socket closed. -/
def control_steps (r : Retry) : List Step :=
  [.socket .control true, .setsockopt .control true,
   .bind .control CLIENT_CONTROL_CHANNEL_PORT true] ++
    (retry_actions .control SERVER_CONTROL_CHANNEL_PORT r).map Step.act ++
    [.send_frame .control, .read_frame .control, .act (.close .control)]

/-- The client's `main` with three arguments, `argv2` being `argv[2]`:
`gethostbyname`, the check of `argv[2]` and `strcpy`,
`init_client_control_channel`, `connect_to_server`, `send_request`,
`init_client_data_channel`, `process_request`, `close (client_socket)`.
`none` when a loop in it is still running after `fuel` turns. -/
def main (fuel : Nat) (m : MainEnv) (argv2 : List Nat) (files : Files) : Option (List Step) :=
  if m.host_ok = false then some [.act (.exit 1)]
  else
    match main_request argv2 m.request with
    | none => some [.act (.exit 1)]
    | some request =>
      if m.socket_ok .control = false then some [.socket .control false, .act (.exit 1)]
      else if m.setsockopt_ok .control = false then
        some [.socket .control true, .setsockopt .control false, .act (.exit 1)]
      else if m.bind_ok .control = false then
        some [.socket .control true, .setsockopt .control true,
              .bind .control CLIENT_CONTROL_CHANNEL_PORT false, .act (.exit 1)]
      else
        match connect_with_retry m.control_connect fuel with
        | .looping _ => none
        | .returned r =>
          match send_request fuel request m.ack_request m.control_in with
          | .looping _ => none
          | .returned rc =>
            if m.socket_ok .data = false then
              some (control_steps r ++ [.socket .data false, .act (.exit 1)])
            else if m.setsockopt_ok .data = false then
              some (control_steps r ++
                [.socket .data true, .setsockopt .data false, .act (.exit 1)])
            else if m.bind_ok .data = false then
              some (control_steps r ++
                [.socket .data true, .setsockopt .data true,
                 .bind .data CLIENT_DATA_CHANNEL_PORT false, .act (.exit 1)])
            else
              match process_request fuel m.env rc.ack_request files with
              | none => none
              | some p =>
                some (control_steps r ++
                  [.socket .data true, .setsockopt .data true,
                   .bind .data CLIENT_DATA_CHANNEL_PORT true] ++
                  p.trace.map Step.act ++
                  if p.trace.any Action.is_exit then [] else [.act (.close .data)])

end Client

/-- An exchange in which every call succeeds at once and `control_in` arrives
on the control connection. -/
def quiet (control_in : Sock) : MainEnv :=
  { env := calm, host_ok := true, socket_ok := fun _ => true, setsockopt_ok := fun _ => true,
    bind_ok := fun _ => true, listen_ok := true, control_accept_ok := true,
    control_connect := fun _ => true, control_in := control_in, ack_request := blank_frame,
    request := blank_frame }

/-! ## Properties -/



/-! ### The control-frame read loop -/

theorem store_length (buf : List Nat) (off : Int) (data : List Nat) :
    (store buf off data).length = buf.length := by
  simp [store]

theorem store_nil (buf : List Nat) (off : Int) : store buf off [] = buf := by
  apply List.ext_getElem
  · simp [store]
  · intro i h1 h2
    simp only [store, List.getElem_map, List.getElem_range, List.length_nil, Int.ofNat_zero,
      add_zero]
    rw [if_neg (by omega)]
    simp [List.getD_eq_getElem, h2]

theorem store_zero_full (buf data : List Nat) (h : data.length = buf.length) :
    store buf 0 data = data := by
  apply List.ext_getElem
  · simp [store, h]
  · intro i h1 h2
    simp [store] at h1 ⊢
    simp [h2, List.getD_eq_getElem]

theorem size_t_of_bounds (x : Int) (h0 : 0 ≤ x) (h1 : x < 2 ^ 64) : size_t x = x.toNat := by
  unfold size_t
  rw [Int.emod_eq_of_lt h0 h1]

theorem recv_noErr (s : Sock) (len : Int) (h : NoErr s) : NoErr (recv s len).sock := by
  unfold NoErr at *
  match s with
  | [] => simp [recv]
  | .err :: rest => simp at h
  | .seg bs :: rest =>
    simp only [recv]
    split
    · intro e he; exact h e (List.mem_cons_of_mem _ he)
    · intro e he
      rcases List.mem_cons.mp he with h1 | h1
      · subst h1; simp
      · exact h e (List.mem_cons_of_mem _ h1)

theorem recv_n_nonneg (s : Sock) (len : Int) (h : NoErr s) : 0 ≤ (recv s len).n := by
  match s with
  | [] => simp [recv]
  | .err :: rest => simp [NoErr] at h
  | .seg bs :: rest => simp only [recv]; omega

theorem recv_n_le (s : Sock) (len : Int) (h0 : 0 ≤ len) (h1 : len < 2 ^ 64) :
    (recv s len).n ≤ len := by
  match s with
  | [] => simpa [recv] using h0
  | .err :: rest => simp only [recv]; omega
  | .seg bs :: rest =>
    simp only [recv, size_t_of_bounds len h0 h1]
    omega

theorem recv_stream (s : Sock) (len : Int) :
    (stream s).length = (recv s len).n.toNat + (stream (recv s len).sock).length := by
  match s with
  | [] => simp [recv, stream]
  | .err :: rest => simp [recv, stream]
  | .seg bs :: rest =>
    simp only [recv]
    split
    · simp [stream]; omega
    · simp [stream]; omega


theorem received_snoc (calls : List RecvCall) (c : RecvCall) :
    received (calls ++ [c]) = received calls + c.n.toNat := by
  simp [received]

theorem recv_frame_returned (fuel : Nat) (st r : FrameRead)
    (h : recv_frame fuel st = .returned r) :
    (REQ_BUFLEN : Int) ≤ r.n ∧
    received st.calls + r.n.toNat ≤ received r.calls ∧
    received r.calls + (stream r.sock).length = received st.calls + (stream st.sock).length := by
  induction fuel generalizing st with
  | zero => simp [recv_frame] at h
  | succ fuel ih =>
    simp only [recv_frame] at h
    have hs := recv_stream st.sock st.bytes_to_read
    split at h
    · obtain ⟨h1, h2, h3⟩ := ih _ h
      simp only [frame_advance, frame_recv, received_snoc] at h2 h3
      refine ⟨h1, ?_, ?_⟩ <;> omega
    · rename_i hn
      injection h with h
      subst h
      simp only [frame_recv, received_snoc]
      simp only [frame_recv] at hn
      refine ⟨?_, ?_, ?_⟩ <;> omega

theorem recv_frame_short (fuel : Nat) (st : FrameRead)
    (h : (stream st.sock).length < REQ_BUFLEN) : ∃ st', recv_frame fuel st = .looping st' := by
  cases hr : recv_frame fuel st with
  | looping st' => exact ⟨st', rfl⟩
  | returned r =>
    obtain ⟨h1, h2, h3⟩ := recv_frame_returned fuel st r hr
    exfalso
    simp only [REQ_BUFLEN] at h h1
    omega

theorem recv_frame_stuck (fuel : Nat) (st : FrameRead) (hne : NoErr st.sock)
    (h0 : 0 ≤ st.bytes_to_read) (h1 : st.bytes_to_read < (REQ_BUFLEN : Int)) :
    ∃ st', recv_frame fuel st = .looping st' := by
  induction fuel generalizing st with
  | zero => exact ⟨st, rfl⟩
  | succ fuel ih =>
    simp only [REQ_BUFLEN] at h1
    have hle := recv_n_le st.sock st.bytes_to_read h0 (by omega)
    have hge := recv_n_nonneg st.sock st.bytes_to_read hne
    have hlt : (frame_recv st).n < (REQ_BUFLEN : Int) := by
      simp only [frame_recv, REQ_BUFLEN]; omega
    simp only [recv_frame, hlt, if_true]
    apply ih
    · exact recv_noErr _ _ hne
    · simp only [frame_advance, frame_recv]; omega
    · simp only [frame_advance, frame_recv, REQ_BUFLEN]; omega

theorem recv_frame_first (fuel : Nat) (st r : FrameRead) (hne : NoErr st.sock)
    (hoff : st.off = 0) (hbtr : st.bytes_to_read = (REQ_BUFLEN : Int))
    (hbuf : st.buf.length = REQ_BUFLEN) (hoob : st.oob = false)
    (h : recv_frame fuel st = .returned r) :
    r.buf = (stream st.sock).take REQ_BUFLEN ∧ r.oob = false ∧ r.bytes_to_read = REQ_BUFLEN := by
  induction fuel generalizing st with
  | zero => simp [recv_frame] at h
  | succ fuel ih =>
    obtain ⟨buf, off, btr, n, sock, calls, oob⟩ := st
    simp only at hne hoff hbtr hbuf hoob
    subst hoff hbtr hoob
    match sock with
    | [] =>
      simp only [recv_frame, frame_recv, recv, REQ_BUFLEN] at h
      simp only [REQ_BUFLEN] at ih
      simp at h
      have := ih _ (by simp [frame_advance, NoErr]) (by simp [frame_advance]) (by simp [frame_advance])
        (by simpa [frame_advance, store_nil] using hbuf) (by simp [frame_advance]) h
      simpa [frame_advance, store_nil, stream] using this
    | .err :: rest => simp [NoErr] at hne
    | .seg bs :: rest =>
      have hsz : size_t 80 = 80 := by decide
      have hne' : NoErr rest := fun e he => hne e (List.mem_cons_of_mem _ he)
      simp only [REQ_BUFLEN] at hbuf ih
      by_cases hlen : 80 ≤ bs.length
      · have hk : min 80 bs.length = 80 := by omega
        simp only [recv_frame, frame_recv, recv, REQ_BUFLEN, Nat.cast_ofNat, hsz, hk] at h
        simp at h
        subst h
        have htl : (List.take 80 bs).length = buf.length := by simp; omega
        simp only [stream, REQ_BUFLEN, store_zero_full _ _ htl]
        refine ⟨(List.take_append_of_le_length hlen).symm, ?_, by simp⟩
        simp; omega
      · have hk : min 80 bs.length = bs.length := by omega
        simp only [recv_frame, frame_recv, recv, REQ_BUFLEN, Nat.cast_ofNat, hsz, hk] at h
        have hlt : ((bs.length : Nat) : Int) < (80 : Int) := by omega
        simp only [hlt, if_true, List.take_length, le_refl] at h
        by_cases hnil : bs = []
        · subst hnil
          have := ih _ (by simpa [frame_advance] using hne') (by simp [frame_advance])
            (by simp [frame_advance]) (by simpa [frame_advance, store_nil] using hbuf)
            (by simp [frame_advance]) h
          simpa [frame_advance, store_nil, stream] using this
        · exfalso
          have hpos : 0 < bs.length := List.length_pos.mpr hnil
          have key : ∀ X : FrameRead, NoErr X.sock → 0 ≤ X.bytes_to_read →
              X.bytes_to_read < 80 → recv_frame fuel X = .returned r → False := by
            intro X a b c d
            obtain ⟨st', hst'⟩ := recv_frame_stuck fuel X a b (by simpa [REQ_BUFLEN] using c)
            rw [hst'] at d
            cases d
          exact key _ (by simpa [frame_advance] using hne')
            (by simp only [frame_advance]; omega) (by simp only [frame_advance]; omega) h



theorem recv_frame_short_read (fuel : Nat) (st : FrameRead)
    (hn : (frame_recv st).n < (REQ_BUFLEN : Int))
    (hs : (stream (frame_recv st).sock).length < REQ_BUFLEN) :
    ∃ st', recv_frame fuel st = .looping st' := by
  cases fuel with
  | zero => exact ⟨st, rfl⟩
  | succ fuel =>
    simp only [recv_frame, hn, if_true]
    exact recv_frame_short fuel _ hs

theorem receive_client_request_looping (fuel : Nat) (buf : List Nat) (sock : Sock)
    (h : ∃ st, recv_frame fuel (frame_init buf sock) = .looping st) :
    ∃ st, receive_client_request fuel buf sock = .looping st := by
  obtain ⟨st, hst⟩ := h
  exact ⟨st, by simp [receive_client_request, hst]⟩

theorem send_request_looping (fuel : Nat) (request buf : List Nat) (sock : Sock)
    (h : ∃ st, recv_frame fuel (frame_init buf sock) = .looping st) :
    ∃ st, send_request fuel request buf sock = .looping st := by
  obtain ⟨st, hst⟩ := h
  exact ⟨st, by simp [send_request, hst]⟩

theorem store_split (buf frame : List Nat) (k : Nat) (hb : buf.length = frame.length)
    (hk : k ≤ frame.length) :
    store (store buf 0 (frame.take k)) (k : Int) (frame.drop k) = frame := by
  apply List.ext_getElem
  · simp [store, hb]
  · intro i h1 h2
    simp only [store, List.length_map, List.length_range, List.getElem_map, List.getElem_range,
      List.length_drop, List.length_take]
    by_cases hik : k ≤ i
    · rw [if_pos (by omega)]
      have : ((i : Int) - (k : Int)).toNat = i - k := by omega
      rw [this, List.getD_eq_getElem _ _ (by simp; omega)]
      simp
      congr 1
      omega
    · rw [if_neg (by omega)]
      have hi : i < buf.length := by omega
      rw [List.getD_eq_getElem _ _ (by simp; omega)]
      simp only [List.getElem_map, List.getElem_range]
      rw [if_pos (by omega)]
      rw [List.getD_eq_getElem _ _ (by simp; omega)]
      simp


theorem recv_frame_whole (fuel : Nat) (buf frame : List Nat)
    (hb : buf.length = REQ_BUFLEN) (hf : frame.length = REQ_BUFLEN) :
    recv_frame (fuel + 1) (frame_init buf [.seg frame]) =
      .returned { buf := frame, off := 0, bytes_to_read := (REQ_BUFLEN : Int), n := 80, sock := [],
                  calls := [⟨0, (REQ_BUFLEN : Int), 80⟩], oob := false } := by
  have hsz : size_t 80 = 80 := by decide
  simp only [REQ_BUFLEN] at hb hf
  have hk : min 80 frame.length = 80 := by omega
  simp only [recv_frame, frame_recv, frame_init, recv, REQ_BUFLEN, Nat.cast_ofNat, hsz, hk]
  have htl : (List.take 80 frame).length = buf.length := by simp; omega
  rw [store_zero_full _ _ htl]
  simp [hf, hb]

theorem receive_client_request_whole (fuel : Nat) (buf frame : List Nat)
    (hb : buf.length = REQ_BUFLEN) (hf : frame.length = REQ_BUFLEN) :
    receive_client_request (fuel + 1) buf [.seg frame] =
      .returned { ack_request := frame, sent := frame, calls := [⟨0, (REQ_BUFLEN : Int), 80⟩],
                  oob := false, closed := true } := by
  have hsend : send frame REQ_BUFLEN = frame := by
    simp only [send]; exact List.take_of_length_le (by omega)
  simp only [receive_client_request, recv_frame_whole fuel buf frame hb hf, hsend]

theorem send_request_whole (fuel : Nat) (request buf frame : List Nat)
    (hb : buf.length = REQ_BUFLEN) (hf : frame.length = REQ_BUFLEN) :
    send_request (fuel + 1) request buf [.seg frame] =
      .returned { sent := send request REQ_BUFLEN, ack_request := frame,
                  bytes_to_read := (REQ_BUFLEN : Int), calls := [⟨0, (REQ_BUFLEN : Int), 80⟩],
                  oob := false, closed := true } := by
  simp only [send_request, recv_frame_whole fuel buf frame hb hf]

/-- Claim C1 (echo). For every 80-byte request frame, whatever it holds: when
the frame reaches the server in one `recv`, `receive_client_request` returns
and the 80 bytes it sends back are the frame, and when that acknowledgment
reaches the client in one `recv`, `send_request` returns with `ack_request`
equal to the request it sent. And however the two frames are cut into
segments, as long as no `recv` fails: if both functions return, the
acknowledgment sent and the acknowledgment received equal the request byte
for byte. -/
theorem echo_ack_equals_request (request srv_buf cli_buf : List Nat)
    (hreq : request.length = REQ_BUFLEN) (hsrv : srv_buf.length = REQ_BUFLEN)
    (hcli : cli_buf.length = REQ_BUFLEN) :
    (∀ fuel, ∃ rs rc,
      receive_client_request (fuel + 1) srv_buf [.seg (send request REQ_BUFLEN)] = .returned rs ∧
      rs.sent = request ∧ rs.ack_request = request ∧
      send_request (fuel + 1) request cli_buf [.seg rs.sent] = .returned rc ∧
      rc.sent = request ∧ rc.ack_request = request) ∧
    (∀ fuel fuel' sock sock' rs rc, NoErr sock → NoErr sock' →
      stream sock = send request REQ_BUFLEN →
      receive_client_request fuel srv_buf sock = .returned rs →
      stream sock' = rs.sent →
      send_request fuel' request cli_buf sock' = .returned rc →
      rs.sent = request ∧ rs.ack_request = request ∧ rc.ack_request = request) := by
  have hsend : send request REQ_BUFLEN = request := by
    simp only [send]; exact List.take_of_length_le (by omega)
  constructor
  · intro fuel
    rw [hsend, receive_client_request_whole fuel srv_buf request hsrv hreq]
    refine ⟨_, ⟨send request REQ_BUFLEN, request, (REQ_BUFLEN : Int), [⟨0, (REQ_BUFLEN : Int), 80⟩],
      false, true⟩, rfl, rfl, rfl, ?_, hsend, rfl⟩
    rw [send_request_whole fuel request cli_buf request hcli hreq]
  · intro fuel fuel' sock sock' rs rc hne hne' hst hrs hst' hrc
    have hs : rs.ack_request = request ∧ rs.sent = request := by
      simp only [receive_client_request] at hrs
      cases hr : recv_frame fuel (frame_init srv_buf sock) with
      | looping st => rw [hr] at hrs; cases hrs
      | returned st =>
        rw [hr] at hrs
        injection hrs with hrs
        subst hrs
        obtain ⟨h1, _, _⟩ := recv_frame_first fuel _ st hne rfl rfl hsrv rfl hr
        simp only [frame_init, hst, hsend] at h1
        have h2 : st.buf = request := by rw [h1]; exact List.take_of_length_le (by omega)
        exact ⟨h2, by simp only [h2, hsend]⟩
    refine ⟨hs.2, hs.1, ?_⟩
    simp only [send_request] at hrc
    cases hr : recv_frame fuel' (frame_init cli_buf sock') with
    | looping st => rw [hr] at hrc; cases hrc
    | returned st =>
      rw [hr] at hrc
      injection hrc with hrc
      subst hrc
      obtain ⟨h1, _, _⟩ := recv_frame_first fuel' _ st hne' rfl rfl hcli rfl hr
      simp only [frame_init, hst', hs.2] at h1
      simp only [h1]
      exact List.take_of_length_le (by omega)

theorem echo_ack_equals_request_witness :
    get_request.length = REQ_BUFLEN ∧ blank_frame.length = REQ_BUFLEN ∧
    ∃ rs rc,
      receive_client_request 1 blank_frame [.seg (send get_request REQ_BUFLEN)] = .returned rs ∧
      rs.sent = get_request ∧ rs.ack_request = get_request ∧
      send_request 1 get_request blank_frame [.seg rs.sent] = .returned rc ∧
      rc.sent = get_request ∧ rc.ack_request = get_request :=
  ⟨by decide, by decide,
    (echo_ack_equals_request get_request blank_frame blank_frame (by decide) (by decide)
      (by decide)).1 0⟩


theorem recv_frame_init_received (fuel : Nat) (buf : List Nat) (sock : Sock) (r : FrameRead)
    (hle : (stream sock).length ≤ REQ_BUFLEN)
    (h : recv_frame fuel (frame_init buf sock) = .returned r) :
    received r.calls = REQ_BUFLEN := by
  obtain ⟨h1, h2, h3⟩ := recv_frame_returned fuel _ r h
  simp only [frame_init, received, List.map_nil, List.sum_nil] at h2 h3
  simp only [received]
  simp only [REQ_BUFLEN] at h1 hle ⊢
  omega

/-- Claim C2 (frame completeness). When the peer sends `N <= 80` bytes in all,
in whatever pieces and with whatever failed calls in between, the read loop
of `receive_client_request` and of `send_request` leaves only with exactly 80
bytes received in total (so only when `N = 80`): with fewer bytes received it
is still in the loop. -/
theorem frame_not_complete_before_80 (N : Nat) (hle : N ≤ REQ_BUFLEN)
    (sock : Sock) (hs : (stream sock).length = N) (fuel : Nat) (request buf : List Nat) :
    (∀ rs, receive_client_request fuel buf sock = .returned rs →
      received rs.calls = REQ_BUFLEN ∧ N = REQ_BUFLEN) ∧
    (∀ rc, send_request fuel request buf sock = .returned rc →
      received rc.calls = REQ_BUFLEN ∧ N = REQ_BUFLEN) := by
  have key : ∀ r, recv_frame fuel (frame_init buf sock) = .returned r →
      received r.calls = REQ_BUFLEN ∧ N = REQ_BUFLEN := by
    intro r h
    have h0 := recv_frame_init_received fuel buf sock r (by omega) h
    obtain ⟨_, _, h3⟩ := recv_frame_returned fuel _ r h
    simp only [frame_init, received, List.map_nil, List.sum_nil] at h3
    simp only [received] at h0
    refine ⟨h0, ?_⟩
    omega
  constructor
  · intro rs h
    simp only [receive_client_request] at h
    cases hr : recv_frame fuel (frame_init buf sock) with
    | looping st => rw [hr] at h; cases h
    | returned st =>
      rw [hr] at h
      injection h with h
      subst h
      exact key st hr
  · intro rc h
    simp only [send_request] at h
    cases hr : recv_frame fuel (frame_init buf sock) with
    | looping st => rw [hr] at h; cases h
    | returned st =>
      rw [hr] at h
      injection h with h
      subst h
      exact key st hr

theorem frame_not_complete_before_80_witness :
    80 ≤ REQ_BUFLEN ∧ (stream [Event.seg get_request]).length = 80 ∧
    ∃ rs, receive_client_request 1 blank_frame [.seg get_request] = .returned rs ∧
      received rs.calls = REQ_BUFLEN ∧ 80 = REQ_BUFLEN :=
  ⟨by decide, by decide, _,
    receive_client_request_whole 0 blank_frame get_request (by decide) (by decide),
    (frame_not_complete_before_80 80 (by decide) [.seg get_request] (by decide) 1
      get_request blank_frame).1 _
      (receive_client_request_whole 0 blank_frame get_request (by decide) (by decide))⟩

/-- Claim C3 (partial reads), evaluated on the code. An 80-byte frame arrives
as `k` bytes then `80 - k`, with `0 < k < 80`. The loop asks for 80 bytes at
offset 0, then for `80 - k` bytes at offset `k`, and the array then holds the
frame; but it has not left: it tests the last count (`80 - k < 80`), not the
total, and neither `receive_client_request` nor `send_request` returns within
any number of turns. -/
theorem split_frame_read_never_returns (frame buf request : List Nat) (k : Nat)
    (hf : frame.length = REQ_BUFLEN) (hb : buf.length = REQ_BUFLEN)
    (hk0 : 0 < k) (hk : k < REQ_BUFLEN) :
    recv_frame 2 (frame_init buf [.seg (frame.take k), .seg (frame.drop k)]) =
      .looping { buf := frame, off := 80, bytes_to_read := 0, n := 80 - (k : Int), sock := [],
                 calls := [⟨0, 80, k⟩, ⟨k, 80 - (k : Int), 80 - (k : Int)⟩], oob := false } ∧
    (∀ fuel, ∃ st,
      receive_client_request fuel buf [.seg (frame.take k), .seg (frame.drop k)] = .looping st) ∧
    (∀ fuel, ∃ st,
      send_request fuel request buf [.seg (frame.take k), .seg (frame.drop k)] = .looping st) := by
  simp only [REQ_BUFLEN] at hf hb hk
  have hsz : size_t 80 = 80 := by decide
  have hsz2 : size_t (80 - (k : Int)) = 80 - k := by
    rw [size_t_of_bounds _ (by omega) (by omega)]; omega
  have hrecv : (frame_recv (frame_init buf [.seg (frame.take k), .seg (frame.drop k)])) =
      { buf := store buf 0 (frame.take k), off := 0, bytes_to_read := 80, n := k,
        sock := [.seg (frame.drop k)], calls := [⟨0, 80, k⟩], oob := false } := by
    have hk1 : min 80 (min k frame.length) = k := by omega
    simp only [frame_recv, frame_init, recv, REQ_BUFLEN, Nat.cast_ofNat, hsz, List.length_take, hk1]
    have hkk : min k frame.length = k := by omega
    have hoob : decide (List.take k frame ≠ [] ∧
        ((0 : Int) < 0 ∨ (buf.length : Int) < 0 + (k : Int))) = false := by
      apply decide_eq_false
      rintro ⟨_, h | h⟩ <;> omega
    simp only [hkk, le_refl, if_true, List.take_take, min_self, List.nil_append, Bool.false_or,
      hoob]
  have hloop : ∀ fuel, ∃ st,
      recv_frame fuel (frame_init buf [.seg (frame.take k), .seg (frame.drop k)]) = .looping st := by
    intro fuel
    apply recv_frame_short_read
    · rw [hrecv]; simp only [REQ_BUFLEN]; omega
    · rw [hrecv]; simp [stream, REQ_BUFLEN]; omega
  refine ⟨?_, fun fuel => receive_client_request_looping _ _ _ (hloop fuel),
    fun fuel => send_request_looping _ _ _ _ (hloop fuel)⟩
  have hlt : (k : Int) < 80 := by omega
  have hk2 : min (80 - k) (frame.length - k) = 80 - k := by omega
  simp only [recv_frame, hrecv, REQ_BUFLEN, Nat.cast_ofNat, hlt, if_true, frame_advance]
  simp only [frame_recv, recv, zero_add, hsz2, List.length_drop, hk2]
  have hst := store_split buf frame k (by omega) (by omega)
  have hlt2 : ((80 - k : Nat) : Int) < 80 := by omega
  simp only [hlt2, if_true, hf, le_refl]
  have hdrop : List.take (80 - k) (List.drop k frame) = List.drop k frame :=
    List.take_of_length_le (by simp; omega)
  simp only [hdrop, hst]
  have e1 : ((80 - k : Nat) : Int) = 80 - (k : Int) := by omega
  have hoob : decide (List.drop k frame ≠ [] ∧ ((k : Int) < 0 ∨
      ((store buf 0 (List.take k frame)).length : Int) <
        (k : Int) + ((List.drop k frame).length : Int))) = false := by
    apply decide_eq_false
    rintro ⟨_, h | h⟩
    · omega
    · simp only [store_length, List.length_drop] at h
      omega
  simp only [hoob, e1, Bool.false_or, List.singleton_append]
  congr 2 <;> omega

theorem split_frame_read_never_returns_witness :
    get_request.length = REQ_BUFLEN ∧ blank_frame.length = REQ_BUFLEN ∧ 0 < 40 ∧
    40 < REQ_BUFLEN ∧
    recv_frame 2 (frame_init blank_frame
        [.seg (get_request.take 40), .seg (get_request.drop 40)]) =
      .looping { buf := get_request, off := 80, bytes_to_read := 0, n := 80 - ((40 : Nat) : Int),
                 sock := [],
                 calls := [⟨0, 80, (40 : Nat)⟩,
                           ⟨(40 : Nat), 80 - ((40 : Nat) : Int), 80 - ((40 : Nat) : Int)⟩],
                 oob := false } ∧
    (∀ fuel, ∃ st,
      receive_client_request fuel blank_frame
        [.seg (get_request.take 40), .seg (get_request.drop 40)] = .looping st) ∧
    (∀ fuel, ∃ st,
      send_request fuel get_request blank_frame
        [.seg (get_request.take 40), .seg (get_request.drop 40)] = .looping st) :=
  ⟨by decide, by decide, by decide, by decide,
    split_frame_read_never_returns get_request blank_frame get_request 40 (by decide) (by decide)
      (by decide) (by decide)⟩

/-- Claim C4 (lost connection), evaluated on the code. When fewer than 80
bytes arrive before the peer closes (every `recv` from then on returns 0, or
-1 where the socket fails), `receive_client_request` and `send_request` do
not return within any number of turns: the loop has no test for a count that
is zero or negative and no exit other than a single count of 80. -/
theorem lost_connection_read_never_returns (sock : Sock)
    (hs : (stream sock).length < REQ_BUFLEN) (request buf : List Nat) (fuel : Nat) :
    (∃ st, receive_client_request fuel buf sock = .looping st) ∧
    (∃ st, send_request fuel request buf sock = .looping st) :=
  ⟨receive_client_request_looping _ _ _ (recv_frame_short fuel _ hs),
    send_request_looping _ _ _ _ (recv_frame_short fuel _ hs)⟩

theorem lost_connection_read_never_returns_witness :
    (stream [Event.seg (get_request.take 40)]).length < REQ_BUFLEN ∧
    (∃ st, receive_client_request 1000 blank_frame [.seg (get_request.take 40)] = .looping st) ∧
    (∃ st, send_request 1000 get_request blank_frame [.seg (get_request.take 40)] = .looping st) :=
  ⟨by decide,
    lost_connection_read_never_returns [.seg (get_request.take 40)] (by decide) get_request
      blank_frame 1000⟩

/-! ### The command dispatch and the retry connector -/

theorem strcmp_eq_zero_iff (a b : List Nat) : strcmp a b = 0 ↔ cstr a = cstr b := by
  induction a generalizing b with
  | nil =>
    cases b with
    | nil => simp [strcmp, cstr]
    | cons y ys =>
      by_cases hy : y = 0
      · simp [strcmp, cstr, hy]
      · simp [strcmp, cstr, hy, List.takeWhile_cons]
  | cons x xs ih =>
    cases b with
    | nil =>
      by_cases hx : x = 0
      · simp [strcmp, cstr, hx]
      · simp [strcmp, cstr, hx, List.takeWhile_cons]
    | cons y ys =>
      by_cases hxy : x = y
      · subst hxy
        by_cases hx : x = 0
        · simp [strcmp, cstr, hx]
        · have := ih ys
          simp only [cstr] at this
          simp [strcmp, cstr, hx, List.takeWhile_cons, this]
      · have hne : (x : Int) - (y : Int) ≠ 0 := by omega
        by_cases hx : x = 0
        · have hy : y ≠ 0 := fun h => hxy (by rw [hx, h])
          simp [strcmp, cstr, hx, List.takeWhile_cons, hy]
          omega
        · by_cases hy : y = 0
          · simp [strcmp, cstr, hx, List.takeWhile_cons, hy]
          · simp [strcmp, cstr, hx, hxy, List.takeWhile_cons, hy, hne]

theorem int32_succ (x : Int) : int32 (int32 x + 1) = int32 (x + 1) := by
  unfold int32; omega

theorem uint32_int32 (x : Int) : uint32 (int32 x) = (x % 4294967296).toNat := by
  unfold uint32 int32; omega

/-- After `j` failed calls of `connect` in a row the loop is `j` turns on. -/
theorem connect_loop_fail (connect : Nat → Bool) (j fuel : Nat) (st : Retry) (t : Int)
    (hst : st.sleep_time = int32 t) (hi : st.interval = 1)
    (hfail : ∀ i, i < j → connect (st.attempts + i) = false) :
    connect_loop connect (j + fuel) st =
      connect_loop connect fuel
        { attempts := st.attempts + j
          sleeps := st.sleeps ++ (List.range j).map fun (i : Nat) => ((t + (i : Int)) % 4294967296).toNat
          sleep_time := int32 (t + (j : Int))
          interval := 1 } := by
  induction j generalizing st t with
  | zero =>
    obtain ⟨a, s, st', iv⟩ := st
    simp only at hst hi
    subst hst hi
    simp
  | succ j ih =>
    have h0 : connect st.attempts = false := by simpa using hfail 0 (by omega)
    have e : j + 1 + fuel = (j + fuel) + 1 := by omega
    rw [e]
    simp only [connect_loop, h0, if_true]
    rw [ih _ (t + 1) (by simp only [hst, hi]; exact int32_succ t) (by simp [hi])
      (by intro i hi'; have := hfail (i + 1) (by omega); simpa [Nat.add_assoc, Nat.add_comm 1 i] using this)]
    congr 1
    simp only [Retry.mk.injEq]
    refine ⟨by omega, ?_, ?_, trivial⟩
    · rw [List.range_succ_eq_map, List.map_cons, List.map_map, hst, uint32_int32]
      simp only [List.append_assoc, List.singleton_append, Nat.cast_zero, add_zero]
      congr 2
      apply List.map_congr_left
      intro i _
      simp only [Function.comp, Nat.succ_eq_add_one, Nat.cast_add, Nat.cast_one]
      congr 2
      omega
    · congr 1
      push_cast
      omega

theorem connect_with_retry_fail (connect : Nat → Bool) (j fuel : Nat)
    (hfail : ∀ i, i < j → connect i = false) :
    connect_with_retry connect (j + fuel) =
      connect_loop connect fuel
        { attempts := j
          sleeps := (List.range j).map fun (i : Nat) => ((1 + (i : Int)) % 4294967296).toNat
          sleep_time := int32 (1 + (j : Int))
          interval := 1 } := by
  unfold connect_with_retry
  rw [connect_loop_fail connect j fuel _ 1 (by decide) rfl (by simpa using hfail)]
  simp

theorem connect_with_retry_success (connect : Nat → Bool) (k : Nat)
    (hfail : ∀ i, i < k → connect i = false) (hok : connect k = true) :
    connect_with_retry connect (k + 1) =
      .returned
        { attempts := k + 1
          sleeps := (List.range k).map fun (i : Nat) => ((1 + (i : Int)) % 4294967296).toNat
          sleep_time := int32 (1 + (k : Int))
          interval := 1 } := by
  rw [connect_with_retry_fail connect k 1 hfail]
  simp only [connect_loop, hok, Bool.true_eq_false, if_false]

theorem connect_with_retry_returns (connect : Nat → Bool) (k fuel : Nat)
    (hfail : ∀ i, i < k → connect i = false) (hok : connect k = true) (hlt : k < fuel) :
    connect_with_retry connect fuel =
      .returned
        { attempts := k + 1
          sleeps := (List.range k).map fun (i : Nat) => ((1 + (i : Int)) % 4294967296).toNat
          sleep_time := int32 (1 + (k : Int))
          interval := 1 } := by
  obtain ⟨m, rfl⟩ : ∃ m, fuel = k + (m + 1) := ⟨fuel - k - 1, by omega⟩
  rw [connect_with_retry_fail connect k (m + 1) hfail]
  simp only [connect_loop, hok, Bool.true_eq_false, if_false]

theorem sum_range_succ_twice (k : Nat) : 2 * ((List.range k).map (· + 1)).sum = k * (k + 1) := by
  induction k with
  | zero => simp
  | succ k ih =>
    rw [List.range_succ, List.map_append, List.sum_append, Nat.mul_add, ih]
    simp only [List.map_cons, List.map_nil, List.sum_cons, List.sum_nil, add_zero]
    ring

/-- Claim C8 (retry convergence). If the first `k` calls of `connect` fail and
call `k + 1` succeeds, `connect_with_retry` returns as soon as it is allowed
`k + 1` calls, having made exactly `k + 1` calls and `k` sleeps; allowed `k`
calls or fewer it is still retrying; and against a peer that refuses for ever
it is still retrying after any number of calls. -/
theorem retry_converges (connect : Nat → Bool) (k : Nat)
    (hfail : ∀ i, i < k → connect i = false) (hok : connect k = true) :
    (∀ fuel, k < fuel →
      ∃ r, connect_with_retry connect fuel = .returned r ∧ r.attempts = k + 1 ∧
        r.sleeps.length = k) ∧
    (∀ fuel, fuel ≤ k →
      ∃ st, connect_with_retry connect fuel = .looping st ∧ st.attempts = fuel ∧
        st.sleeps.length = fuel) ∧
    (∀ refuse : Nat → Bool, (∀ i, refuse i = false) →
      ∀ fuel, ∃ st, connect_with_retry refuse fuel = .looping st ∧ st.attempts = fuel) := by
  refine ⟨?_, ?_, ?_⟩
  · intro fuel hlt
    rw [connect_with_retry_returns connect k fuel hfail hok hlt]
    exact ⟨_, rfl, rfl, by simp⟩
  · intro fuel hle
    have h := connect_with_retry_fail connect fuel 0 (fun i hi => hfail i (by omega))
    rw [Nat.add_zero] at h
    rw [h]
    simp [connect_loop]
  · intro refuse hall fuel
    have h := connect_with_retry_fail refuse fuel 0 (fun i _ => hall i)
    rw [Nat.add_zero] at h
    rw [h]
    simp [connect_loop]

theorem retry_converges_witness :
    (∀ i, i < 3 → (fun i => decide (3 ≤ i)) i = false) ∧ (fun i => decide (3 ≤ i)) 3 = true ∧
    ∃ r, connect_with_retry (fun i => decide (3 ≤ i)) 4 = .returned r ∧ r.attempts = 3 + 1 ∧
      r.sleeps.length = 3 :=
  ⟨by decide, by decide,
    (retry_converges (fun i => decide (3 ≤ i)) 3 (by decide) (by decide)).1 4 (by decide)⟩

/-- Claim C9 as amended (linear back-off within the range of `int`). If the
first `k` calls of `connect` fail and the next succeeds, with
`k <= 2147483647`, the sleeps of `connect_with_retry` last 1, 2, ..., `k`: the
sleep after the failed call number `i` lasts `i`, and they total
`k (k + 1) / 2`. -/
theorem backoff_linear_within_int (connect : Nat → Bool) (k : Nat)
    (hfail : ∀ i, i < k → connect i = false) (hok : connect k = true)
    (hk : k ≤ 2147483647) :
    ∃ r, connect_with_retry connect (k + 1) = .returned r ∧
      r.sleeps = (List.range k).map (· + 1) ∧
      (∀ i, 1 ≤ i → i ≤ k → r.sleeps[i - 1]? = some i) ∧
      r.sleeps.sum = k * (k + 1) / 2 := by
  rw [connect_with_retry_success connect k hfail hok]
  have hs : ((List.range k).map fun (i : Nat) => ((1 + (i : Int)) % 4294967296).toNat) =
      (List.range k).map (· + 1) := by
    apply List.map_congr_left
    intro i hi
    have := List.mem_range.mp hi
    omega
  rw [hs]
  refine ⟨_, rfl, rfl, ?_, ?_⟩
  · intro i h1 h2
    show ((List.range k).map (· + 1))[i - 1]? = some i
    rw [List.getElem?_map, List.getElem?_range (by omega)]
    simp only [Option.map_some']
    congr 1
    omega
  · show ((List.range k).map (· + 1)).sum = k * (k + 1) / 2
    have := sum_range_succ_twice k
    generalize k * (k + 1) = m at this ⊢
    omega

theorem backoff_linear_within_int_witness :
    (∀ i, i < 3 → (fun i => decide (3 ≤ i)) i = false) ∧ (fun i => decide (3 ≤ i)) 3 = true ∧
    3 ≤ 2147483647 ∧
    ∃ r, connect_with_retry (fun i => decide (3 ≤ i)) (3 + 1) = .returned r ∧
      r.sleeps = (List.range 3).map (· + 1) ∧
      (∀ i, 1 ≤ i → i ≤ 3 → r.sleeps[i - 1]? = some i) ∧
      r.sleeps.sum = 3 * (3 + 1) / 2 :=
  ⟨by decide, by decide, by decide,
    backoff_linear_within_int (fun i => decide (3 ≤ i)) 3 (by decide) (by decide) (by decide)⟩

/-- Claim C9 as written fails: after 4294967296 failed calls the counter,
a 32-bit `int` handed to `sleep` as an `unsigned int`, has wrapped, and the
sleep that follows failed call number 4294967296 lasts 0. -/
theorem backoff_wraps_after_4294967296_failures :
    ∃ r, connect_with_retry (fun i => decide (4294967296 ≤ i)) (4294967296 + 1) = .returned r ∧
      r.attempts = 4294967296 + 1 ∧ r.sleeps.length = 4294967296 ∧
      r.sleeps[4294967295]? = some 0 := by
  rw [connect_with_retry_success (fun i => decide (4294967296 ≤ i)) 4294967296
    (by intro i hi; simp only [decide_eq_false_iff_not]; omega)
    (decide_eq_true (Nat.le_refl _))]
  refine ⟨_, rfl, rfl, ?_, ?_⟩
  · simp only [List.length_map, List.length_range]
  · dsimp only
    rw [List.getElem?_map, List.getElem?_range (by norm_num)]
    rfl

/-! ### The file stream -/

theorem fgets_line_append_drop (n : Nat) (fp : List Nat) :
    fgets_line n fp ++ fp.drop (fgets_line n fp).length = fp := by
  induction n generalizing fp with
  | zero => simp [fgets_line]
  | succ n ih =>
    cases fp with
    | nil => simp [fgets_line]
    | cons b rest =>
      simp only [fgets_line]
      split
      · simp
      · simpa using ih rest

theorem fgets_line_length_le (n : Nat) (fp : List Nat) : (fgets_line n fp).length ≤ n := by
  induction n generalizing fp with
  | zero => simp [fgets_line]
  | succ n ih =>
    cases fp with
    | nil => simp [fgets_line]
    | cons b rest =>
      simp only [fgets_line]
      split
      · simp
      · simpa using ih rest

theorem fgets_line_pos (n : Nat) (b : Nat) (rest : List Nat) :
    0 < (fgets_line (n + 1) (b :: rest)).length := by
  simp only [fgets_line]
  split <;> simp

theorem pad_length (c : List Nat) (h : c.length < FILE_BUFLEN) : (pad c).length = FILE_BUFLEN := by
  simp only [pad, List.length_append, List.length_replicate]
  omega

theorem fgets_zeroed (line : List Nat) (h : line.length < FILE_BUFLEN) :
    line ++ [0] ++ (List.replicate FILE_BUFLEN 0).drop (line.length + 1) = pad line := by
  simp only [pad, List.drop_replicate, List.append_assoc, List.singleton_append]
  congr 1
  have : FILE_BUFLEN - line.length = (FILE_BUFLEN - (line.length + 1)) + 1 := by omega
  rw [this, List.replicate_succ]

theorem send_file_loop_blocks (send_ok : Nat → Bool) (hok : ∀ i, send_ok i = true)
    (fuel : Nat) (st : SendState) (hdata : st.data = List.replicate FILE_BUFLEN 0)
    (hfuel : st.fp.length < fuel) :
    ∃ cs : List (List Nat),
      send_file_loop send_ok fuel st = .returned ⟨st.wire ++ cs.map pad, false⟩ ∧
      cs.flatten = st.fp ∧ (∀ c ∈ cs, 0 < c.length ∧ c.length < FILE_BUFLEN) ∧
      cs.length ≤ st.fp.length := by
  induction fuel generalizing st with
  | zero => omega
  | succ fuel ih =>
    obtain ⟨data, fp, wire⟩ := st
    simp only at hdata hfuel
    subst hdata
    cases fp with
    | nil =>
      refine ⟨[], ?_, rfl, by simp, by simp⟩
      simp [send_file_loop, fgets]
    | cons b rest =>
      have hpos := fgets_line_pos (FILE_BUFLEN - 1 - 1) b rest
      have hle := fgets_line_length_le (FILE_BUFLEN - 1) (b :: rest)
      have hpre := fgets_line_append_drop (FILE_BUFLEN - 1) (b :: rest)
      have e : FILE_BUFLEN - 1 - 1 + 1 = FILE_BUFLEN - 1 := by decide
      rw [e] at hpos
      generalize hline : fgets_line (FILE_BUFLEN - 1) (b :: rest) = line at hpos hle hpre
      have hlt : line.length < FILE_BUFLEN := by
        have : FILE_BUFLEN - 1 < FILE_BUFLEN := by decide
        omega
      have hdrop : ((b :: rest).drop line.length).length < fuel := by
        simp only [List.length_drop, List.length_cons] at hfuel ⊢
        omega
      obtain ⟨cs, h1, h2, h3, h4⟩ := ih
        { data := List.replicate FILE_BUFLEN 0, fp := (b :: rest).drop line.length,
          wire := wire ++ [pad line] } rfl hdrop
      refine ⟨line :: cs, ?_, ?_, ?_, ?_⟩
      · simp only [send_file_loop, fgets, hline, hok, Bool.true_eq_false, if_false,
          fgets_zeroed line hlt]
        have hs : send (pad line) FILE_BUFLEN = pad line := by
          simp only [send]
          exact List.take_of_length_le (by rw [pad_length line hlt])
        have hz : bzero (pad line) FILE_BUFLEN = List.replicate FILE_BUFLEN 0 := by
          simp only [bzero, pad_length line hlt, min_self]
          rw [List.drop_of_length_le (by rw [pad_length line hlt])]
          simp
        rw [hs, hz, h1]
        simp
      · simp only [List.flatten_cons, h2]
        exact hpre
      · intro c hc
        rcases List.mem_cons.mp hc with h | h
        · subst h; exact ⟨hpos, hlt⟩
        · exact h3 c h
      · simp only [List.length_cons, List.length_drop] at h4 ⊢
        omega

theorem cstr_pad (c : List Nat) (h0 : 0 ∉ c) (hlt : c.length < FILE_BUFLEN) : cstr (pad c) = c := by
  have : FILE_BUFLEN - c.length = (FILE_BUFLEN - c.length - 1) + 1 := by omega
  simp only [cstr, pad]
  rw [this, List.replicate_succ, List.takeWhile_append_of_pos]
  · simp
  · intro x hx
    have : x ≠ 0 := fun h => h0 (h ▸ hx)
    simpa using this

theorem zero_mem_pad (c : List Nat) (hlt : c.length < FILE_BUFLEN) : 0 ∈ pad c := by
  simp only [pad, List.mem_append, List.mem_replicate]
  right
  exact ⟨by omega, trivial⟩

theorem write_file_loop_aligned (cs : List (List Nat))
    (hcs : ∀ c ∈ cs, c.length < FILE_BUFLEN ∧ 0 ∉ c) (m : Nat) (st : WriteState)
    (hbuf : st.buffer.length = FILE_BUFLEN) (hsock : st.sock = deliver (cs.map pad)) :
    ∃ w, write_file_loop (cs.length + (m + 1)) st = .returned w ∧
      w.file = st.file ++ cs.flatten ∧ w.overrun = st.overrun ∧ w.n = 0 ∧
      w.log.length = st.log.length + cs.length ∧ w.sock = [] := by
  induction cs generalizing st with
  | nil =>
    obtain ⟨buffer, n, sock, file, log, overrun⟩ := st
    simp only [deliver, List.map_nil] at hsock
    subst hsock
    refine ⟨{ buffer := store buffer 0 [], n := 0, sock := [], file := file, log := log,
              overrun := overrun }, ?_, ?_⟩
    · simp only [List.length_nil, Nat.zero_add, write_file_loop, recv, le_refl, if_true]
    · simp
  | cons c cs ih =>
    obtain ⟨buffer, n, sock, file, log, overrun⟩ := st
    simp only [deliver, List.map_cons] at hsock hbuf
    subst hsock
    obtain ⟨hlt, h0⟩ := hcs c (List.mem_cons_self _ _)
    have hsz : size_t ((FILE_BUFLEN : Nat) : Int) = FILE_BUFLEN := by decide
    have hpl := pad_length c hlt
    have e : (c :: cs).length + (m + 1) = (cs.length + (m + 1)) + 1 := by
      simp only [List.length_cons]; omega
    have hst : store buffer 0 (pad c) = pad c := store_zero_full _ _ (by rw [hpl, hbuf])
    have hz : bzero (pad c) FILE_BUFLEN = List.replicate FILE_BUFLEN 0 := by
      simp only [bzero, hpl, min_self]
      rw [List.drop_of_length_le (by rw [hpl])]
      simp
    have hpos : ¬ (((FILE_BUFLEN : Nat) : Int) ≤ 0) := by decide
    obtain ⟨w, h1, h2, h3, h4, h5, h6⟩ := ih (fun x hx => hcs x (List.mem_cons_of_mem _ hx))
      { buffer := List.replicate FILE_BUFLEN 0, n := (FILE_BUFLEN : Int),
        sock := deliver (cs.map pad), file := file ++ c,
        log := log ++ [⟨(FILE_BUFLEN : Int), pad c, c⟩], overrun := overrun }
      (by simp) rfl
    refine ⟨w, ?_, ?_, ?_, h4, ?_, h6⟩
    · rw [e]
      simp only [write_file_loop, recv, hsz, hpl, min_self, le_refl, if_true,
        List.take_of_length_le (le_of_eq hpl), hst, hpos, if_false, hz, cstr_pad c h0 hlt]
      have hov : (overrun || decide (0 ∉ pad c)) = overrun := by
        simp [zero_mem_pad c hlt]
      rw [hov]
      exact h1
    · rw [h2]; simp
    · rw [h3]
    · rw [h5]; simp; omega

theorem write_file_loop_returns (fuel : Nat) (st : WriteState)
    (h : sock_size st.sock < fuel) : ∃ w, write_file_loop fuel st = .returned w := by
  induction fuel generalizing st with
  | zero => omega
  | succ fuel ih =>
    obtain ⟨buffer, n, sock, file, log, overrun⟩ := st
    simp only at h
    match sock with
    | [] =>
      simp only [write_file_loop, recv, le_refl, if_true]
      exact ⟨_, rfl⟩
    | .err :: rest =>
      have : (-1 : Int) ≤ 0 := by decide
      simp only [write_file_loop, recv, this, if_true]
      exact ⟨_, rfl⟩
    | .seg bs :: rest =>
      simp only [write_file_loop, recv]
      split
      · exact ⟨_, rfl⟩
      · rename_i hn
        apply ih
        simp only [sock_size] at h ⊢
        split
        · omega
        · simp only [sock_size, List.length_drop]
          omega

theorem transfer_aligned (send_ok : Nat → Bool) (hok : ∀ i, send_ok i = true)
    (file : List Nat) (h0 : 0 ∉ file) (buffer : List Nat)
    (hbuf : buffer.length = FILE_BUFLEN) :
    ∃ s, send_file send_ok file = .returned s ∧ s.exited = false ∧
      s.blocks.length ≤ file.length ∧
      ∀ fuel, s.blocks.length < fuel →
        ∃ w, write_file fuel buffer (deliver s.blocks) = .returned w ∧
          w.file = file ∧ w.overrun = false ∧ w.n = 0 ∧ w.log.length = s.blocks.length := by
  obtain ⟨cs, h1, h2, h3, h4⟩ := send_file_loop_blocks send_ok hok (file.length + 1)
    { data := List.replicate FILE_BUFLEN 0, fp := file, wire := [] } rfl (Nat.lt_succ_self _)
  simp only [List.nil_append] at h1 h2 h4
  have hcs : ∀ c ∈ cs, c.length < FILE_BUFLEN ∧ 0 ∉ c := by
    intro c hc
    refine ⟨(h3 c hc).2, fun hz => h0 ?_⟩
    rw [← h2]
    exact List.mem_flatten.mpr ⟨c, hc, hz⟩
  refine ⟨⟨cs.map pad, false⟩, h1, rfl, by simpa using h4, ?_⟩
  intro fuel hfuel
  simp only [List.length_map] at hfuel
  obtain ⟨m, rfl⟩ : ∃ m, fuel = cs.length + (m + 1) := ⟨fuel - cs.length - 1, by omega⟩
  obtain ⟨w, g1, g2, g3, g4, g5, _⟩ := write_file_loop_aligned cs hcs m
    { buffer := buffer, n := 0, sock := deliver (cs.map pad), file := [], log := [],
      overrun := false } hbuf rfl
  refine ⟨w, ?_, ?_, g3, g4, ?_⟩
  · simpa [write_file] using g1
  · simpa [h2] using g2
  · simpa using g5

/-! ### The data session -/

theorem retry_actions_not_passive (s : Socket) (port : Nat) (r : Retry) :
    (retry_actions s port r).any Action.is_passive = false := by
  simp only [retry_actions, List.any_append, List.any_cons, List.any_nil, Action.is_passive,
    Bool.or_false, Bool.or_eq_false_iff, and_true]
  rw [List.any_eq_false]
  intro a ha
  obtain ⟨l, hl, hal⟩ := List.mem_flatten.mp ha
  obtain ⟨d, _, rfl⟩ := List.mem_map.mp hl
  simp only [List.mem_cons, List.mem_singleton, List.not_mem_nil, or_false] at hal
  rcases hal with rfl | rfl <;> simp [Action.is_passive]

theorem cstr_get : cstr GET_COMMAND_NAME = [71, 69, 84] := by decide

theorem cstr_send : cstr SEND_COMMAND_NAME = [83, 69, 78, 68] := by decide

theorem strcmp_send_not_get (ack : List Nat) (h : strcmp ack SEND_COMMAND_NAME = 0) :
    strcmp ack GET_COMMAND_NAME ≠ 0 := by
  intro hg
  rw [strcmp_eq_zero_iff, cstr_get] at hg
  rw [strcmp_eq_zero_iff, cstr_send, hg] at h
  exact absurd h (by decide)

theorem send_file_returns (send_ok : Nat → Bool) (hok : ∀ i, send_ok i = true)
    (file : List Nat) :
    ∃ s, send_file send_ok file = .returned s ∧ s.exited = false := by
  obtain ⟨cs, h1, _⟩ := send_file_loop_blocks send_ok hok (file.length + 1)
    { data := List.replicate FILE_BUFLEN 0, fp := file, wire := [] } rfl (Nat.lt_succ_self _)
  exact ⟨_, h1, rfl⟩

theorem active_side (env : Env) (k fuel : Nat) (hco : env.cooperates k) (hlt : k < fuel)
    (content : List Nat) :
    ∃ r s, connect_with_retry env.connect fuel = .returned r ∧ r.attempts = k + 1 ∧
      r.sleeps.length = k ∧ send_file env.send_ok content = .returned s ∧ s.exited = false := by
  obtain ⟨hf, hk, _, _, hs, _⟩ := hco
  obtain ⟨s, h1, h2⟩ := send_file_returns env.send_ok hs content
  exact ⟨_, s, connect_with_retry_returns env.connect k fuel hf hk hlt, rfl, by simp, h1, h2⟩

theorem server_process_request_get (fuel : Nat) (env : Env) (ack : List Nat) (port : Nat)
    (files : Files) (content : List Nat) (r : Retry) (s : SendResult)
    (h : strcmp ack GET_COMMAND_NAME = 0) (hfile : files GET_FILE_NAME = some content)
    (hr : connect_with_retry env.connect fuel = .returned r)
    (hs : send_file env.send_ok content = .returned s) (hx : s.exited = false) :
    Server.process_request fuel env ack port files =
      some { trace := retry_actions .data port r ++
               [.fopen GET_FILE_NAME "r" true, .send_file .data, .close .data],
             files := files, wire := s.blocks } := by
  simp only [Server.process_request, h, if_true, hr, hfile, hs, hx, Bool.false_eq_true, if_false]

theorem client_process_request_send (fuel : Nat) (env : Env) (ack : List Nat)
    (files : Files) (content : List Nat) (r : Retry) (s : SendResult)
    (h : strcmp ack SEND_COMMAND_NAME = 0) (hfile : files SEND_FILE_NAME = some content)
    (hr : connect_with_retry env.connect fuel = .returned r)
    (hs : send_file env.send_ok content = .returned s) (hx : s.exited = false) :
    Client.process_request fuel env ack files =
      some { trace := retry_actions .data SERVER_DATA_CHANNEL_PORT r ++
               [.fopen SEND_FILE_NAME "r" true, .send_file .data, .close .data],
             files := files, wire := s.blocks } := by
  simp only [Client.process_request, strcmp_send_not_get ack h, h, if_true, if_false, hr, hfile,
    hs, hx, Bool.false_eq_true]

theorem server_process_request_send (fuel : Nat) (env : Env) (ack : List Nat) (port : Nat)
    (files : Files) (w : WriteState)
    (h : strcmp ack SEND_COMMAND_NAME = 0) (hl : env.listen_ok = true)
    (ha : env.accept_ok = true) (hw : write_file fuel env.buffer env.incoming = .returned w) :
    Server.process_request fuel env ack port files =
      some { trace := [.listen .data 5 true, .accept .data true, .fopen SEND_FILE_NAME "w" true,
                       .write_file .data_conn, .close .data_conn, .close .data],
             files := files.write SEND_FILE_NAME w.file, wire := [] } := by
  simp only [Server.process_request, strcmp_send_not_get ack h, h, if_true, if_false, hl, ha, hw,
    Bool.true_eq_false]

theorem client_process_request_get (fuel : Nat) (env : Env) (ack : List Nat)
    (files : Files) (w : WriteState)
    (h : strcmp ack GET_COMMAND_NAME = 0) (hl : env.listen_ok = true)
    (ha : env.accept_ok = true) (hw : write_file fuel env.buffer env.incoming = .returned w) :
    Client.process_request fuel env ack files =
      some { trace := [.listen .data 5 true, .accept .data true, .fopen GET_FILE_NAME "w" true,
                       .write_file .data_conn, .close .data_conn, .close .data],
             files := files.write GET_FILE_NAME w.file, wire := [] } := by
  simp only [Client.process_request, h, if_true, hl, ha, hw, Bool.true_eq_false, if_false]

theorem server_roles_apart (fuel : Nat) (env : Env) (ack : List Nat) (port : Nat)
    (files : Files) (p : Proc) (h : Server.process_request fuel env ack port files = some p) :
    (p.trace.any Action.is_connect && p.trace.any Action.is_passive) = false := by
  unfold Server.process_request at h
  split at h
  · split at h
    · cases h
    · split at h
      · injection h with h
        subst h
        simp [retry_actions_not_passive, Action.is_passive]
      · split at h
        · cases h
        · injection h with h
          subst h
          simp only [List.any_append, retry_actions_not_passive, Bool.false_or]
          split <;> simp [Action.is_passive]
  · split at h
    · split at h
      · injection h with h; subst h; simp [Action.is_connect]
      · split at h
        · injection h with h; subst h; simp [Action.is_connect]
        · split at h
          · cases h
          · injection h with h; subst h; simp [Action.is_connect]
    · injection h with h; subst h; simp

theorem client_roles_apart (fuel : Nat) (env : Env) (ack : List Nat)
    (files : Files) (p : Proc) (h : Client.process_request fuel env ack files = some p) :
    (p.trace.any Action.is_connect && p.trace.any Action.is_passive) = false := by
  unfold Client.process_request at h
  split at h
  · split at h
    · injection h with h; subst h; simp [Action.is_connect]
    · split at h
      · injection h with h; subst h; simp [Action.is_connect]
      · split at h
        · cases h
        · injection h with h; subst h; simp [Action.is_connect]
  · split at h
    · split at h
      · cases h
      · split at h
        · injection h with h
          subst h
          simp [retry_actions_not_passive, Action.is_passive]
        · split at h
          · cases h
          · injection h with h
            subst h
            simp only [List.any_append, retry_actions_not_passive, Bool.false_or]
            split <;> simp [Action.is_passive]
    · injection h with h; subst h; simp

/-- Claim C10 (unrecognised command). On an 80-byte frame whose command string
is neither `GET` nor `SEND`, `process_request` of the server and of the
client does nothing: no call at all, no file touched, nothing sent; and
`receive_client_request` has echoed the frame like any other. -/
theorem unrecognized_command_no_transfer (ack_request srv_buf : List Nat)
    (hlen : ack_request.length = REQ_BUFLEN) (hbuf : srv_buf.length = REQ_BUFLEN)
    (hg : cstr ack_request ≠ [71, 69, 84]) (hs : cstr ack_request ≠ [83, 69, 78, 68])
    (fuel : Nat) (senv cenv : Env) (sfiles cfiles : Files) :
    Server.main_process_request fuel senv ack_request sfiles =
      some { trace := [], files := sfiles, wire := [] } ∧
    Client.process_request fuel cenv ack_request cfiles =
      some { trace := [], files := cfiles, wire := [] } ∧
    ∃ rs, receive_client_request (fuel + 1) srv_buf [.seg ack_request] = .returned rs ∧
      rs.sent = ack_request := by
  have h1 : strcmp ack_request GET_COMMAND_NAME ≠ 0 := by
    rw [Ne, strcmp_eq_zero_iff, cstr_get]; exact hg
  have h2 : strcmp ack_request SEND_COMMAND_NAME ≠ 0 := by
    rw [Ne, strcmp_eq_zero_iff, cstr_send]; exact hs
  refine ⟨?_, ?_, _, receive_client_request_whole fuel srv_buf ack_request hbuf hlen, rfl⟩
  · simp only [Server.main_process_request, Server.process_request, h1, h2, if_false]
  · simp only [Client.process_request, h1, h2, if_false]

theorem calm_cooperates : calm.cooperates 0 :=
  ⟨fun _ hi => absurd hi (Nat.not_lt_zero _), rfl, rfl, rfl, fun _ => rfl,
    List.length_replicate 1024 0⟩

theorem unrecognized_command_no_transfer_witness :
    put_request.length = REQ_BUFLEN ∧ blank_frame.length = REQ_BUFLEN ∧
    cstr put_request ≠ [71, 69, 84] ∧ cstr put_request ≠ [83, 69, 78, 68] ∧
    Server.main_process_request 1 calm put_request server_dir =
      some { trace := [], files := server_dir, wire := [] } ∧
    Client.process_request 1 calm put_request client_dir =
      some { trace := [], files := client_dir, wire := [] } ∧
    ∃ rs, receive_client_request (1 + 1) blank_frame [.seg put_request] = .returned rs ∧
      rs.sent = put_request :=
  ⟨by decide, by decide, by decide, by decide,
    unrecognized_command_no_transfer put_request blank_frame (by decide) (by decide) (by decide)
      (by decide) 1 calm calm server_dir client_dir⟩

/-- Claim C7 as amended (transfer of a text file, block by block). For every
source file without a zero byte, when every `send` succeeds and each `recv`
of `write_file` gets one whole 1024-byte block, `send_file` returns, the loop
of `write_file` ends at the `recv` that returns 0 after the last block, and
the file written has the bytes and the length of the source: one `fprintf`
a block, no padding written, nothing cut. -/
theorem aligned_text_transfer_exact (send_ok : Nat → Bool) (hok : ∀ i, send_ok i = true)
    (file : List Nat) (h0 : 0 ∉ file) (buffer : List Nat) (hbuf : buffer.length = FILE_BUFLEN) :
    ∃ s w, send_file send_ok file = .returned s ∧ s.exited = false ∧
      write_file (s.blocks.length + 1) buffer (deliver s.blocks) = .returned w ∧
      w.file = file ∧ w.file.length = file.length ∧ w.n = 0 ∧
      w.log.length = s.blocks.length ∧ w.overrun = false := by
  obtain ⟨s, h1, h2, _, h4⟩ := transfer_aligned send_ok hok file h0 buffer hbuf
  obtain ⟨w, g1, g2, g3, g4, g5⟩ := h4 (s.blocks.length + 1) (Nat.lt_succ_self _)
  exact ⟨s, w, h1, h2, g1, g2, by rw [g2], g4, g5, g3⟩

theorem aligned_text_transfer_exact_witness :
    (∀ i, (fun _ : Nat => true) i = true) ∧ 0 ∉ [97, 10, 98] ∧
    (List.replicate 1024 7).length = FILE_BUFLEN ∧
    ∃ s w, send_file (fun _ => true) [97, 10, 98] = .returned s ∧ s.exited = false ∧
      write_file (s.blocks.length + 1) (List.replicate 1024 7) (deliver s.blocks) = .returned w ∧
      w.file = [97, 10, 98] ∧ w.file.length = [97, 10, 98].length ∧ w.n = 0 ∧
      w.log.length = s.blocks.length ∧ w.overrun = false :=
  ⟨fun _ => rfl, by decide, List.length_replicate 1024 7,
    aligned_text_transfer_exact (fun _ => true) (fun _ => rfl) [97, 10, 98] (by decide)
      (List.replicate 1024 7) (List.length_replicate 1024 7)⟩

set_option maxRecDepth 1000000 in
/-- Claim C7 as written fails. A source file holding `A`, a zero byte, `B`
arrives as `A` alone (`fprintf ("%s")` stops at the zero byte); and the
source file `a`, newline, `b`, newline, when the first `recv` returns 1023
bytes, arrives as `a`, newline alone (the second line lies behind the
padding of the first in the array). -/
theorem transfer_loses_bytes :
    written 2 (List.replicate 1024 0) (deliver (sent_blocks [65, 0, 66])) = some [65] ∧
    written 4 (List.replicate 1024 0)
      [.seg ((sent_blocks [97, 10, 98, 10]).flatten.take 1023),
       .seg ((sent_blocks [97, 10, 98, 10]).flatten.drop 1023)] = some [97, 10] :=
  ⟨rfl, rfl⟩

theorem write_get_send (fs : Files) (c : List Nat) :
    (fs.write SEND_FILE_NAME c) GET_FILE_NAME = fs GET_FILE_NAME := by
  simp only [Files.write]
  rw [if_neg (by decide)]

theorem deposit_then_fetch_aux (A G send_frame get_frame : List Nat) (cenv senv : Env)
    (cfiles sfiles : Files) (kc ks fuel : Nat)
    (hfs : strcmp send_frame SEND_COMMAND_NAME = 0) (hfg : strcmp get_frame GET_COMMAND_NAME = 0)
    (hc : cenv.cooperates kc) (hs : senv.cooperates ks)
    (hA : cfiles SEND_FILE_NAME = some A) (hG : sfiles GET_FILE_NAME = some G)
    (hA0 : 0 ∉ A) (hG0 : 0 ∉ G)
    (hkc : kc < fuel) (hks : ks < fuel) (hAf : A.length < fuel) (hGf : G.length < fuel) :
    deposit_session fuel send_frame cenv senv cfiles sfiles =
      some (cfiles, sfiles.write SEND_FILE_NAME A) ∧
    fetch_session fuel get_frame cenv senv cfiles (sfiles.write SEND_FILE_NAME A) =
      some (cfiles.write GET_FILE_NAME G, sfiles.write SEND_FILE_NAME A) := by
  have hc' := hc
  obtain ⟨hcf, hck, _, _, hcs, _⟩ := hc
  obtain ⟨hsf, hsk, hsl, hsa, hss, hsb⟩ := hs
  obtain ⟨hcf', hck', hcl, hca, hcs', hcb⟩ := hc'
  constructor
  · obtain ⟨s, h1, h2, h3, h4⟩ := transfer_aligned cenv.send_ok hcs A hA0 senv.buffer hsb
    obtain ⟨w, g1, g2, _⟩ := h4 fuel (by omega)
    have hcli := client_process_request_send fuel cenv send_frame cfiles A _ s hfs hA
      (connect_with_retry_returns cenv.connect kc fuel hcf hck hkc) h1 h2
    have hsrv := server_process_request_send fuel { senv with incoming := deliver s.blocks }
      send_frame CLIENT_DATA_CHANNEL_PORT sfiles w hfs hsl hsa g1
    simp only [deposit_session, hcli, Server.main_process_request, hsrv, g2]
  · obtain ⟨s, h1, h2, h3, h4⟩ := transfer_aligned senv.send_ok hss G hG0 cenv.buffer hcb
    obtain ⟨w, g1, g2, _⟩ := h4 fuel (by omega)
    have hsrv := server_process_request_get fuel senv get_frame CLIENT_DATA_CHANNEL_PORT
      (sfiles.write SEND_FILE_NAME A) G _ s hfg (by rw [write_get_send]; exact hG)
      (connect_with_retry_returns senv.connect ks fuel hsf hsk hks) h1 h2
    have hcli := client_process_request_get fuel { cenv with incoming := deliver s.blocks }
      get_frame cfiles w hfg hcl hca g1
    simp only [fetch_session, Server.main_process_request, hsrv, hcli, g2]

/-- Claim C6 as amended (deposit, then fetch). With every call succeeding,
contents without a zero byte and each block delivered to one `recv`: the
deposit copies the client's `send.txt` (`A`) to the server's `send.txt`; the
fetch copies the server's `get.txt` (`G`), a file the deposit leaves as it
was, to the client's `get.txt`. The client ends with `G` at its receive
location, which is `A` exactly when the server's `get.txt` already held
`A`. -/
theorem deposit_then_fetch_returns_server_get_file (A G send_frame get_frame : List Nat)
    (cenv senv : Env) (cfiles sfiles : Files) (kc ks fuel : Nat)
    (hfs : strcmp send_frame SEND_COMMAND_NAME = 0) (hfg : strcmp get_frame GET_COMMAND_NAME = 0)
    (hc : cenv.cooperates kc) (hs : senv.cooperates ks)
    (hA : cfiles SEND_FILE_NAME = some A) (hG : sfiles GET_FILE_NAME = some G)
    (hA0 : 0 ∉ A) (hG0 : 0 ∉ G)
    (hkc : kc < fuel) (hks : ks < fuel) (hAf : A.length < fuel) (hGf : G.length < fuel) :
    ∃ c2 s2, deposit_then_fetch fuel send_frame get_frame cenv senv cfiles sfiles =
        some (c2, s2) ∧
      s2 SEND_FILE_NAME = some A ∧ s2 GET_FILE_NAME = some G ∧ c2 GET_FILE_NAME = some G ∧
      c2 SEND_FILE_NAME = some A ∧ (c2 GET_FILE_NAME = some A ↔ G = A) := by
  obtain ⟨h1, h2⟩ := deposit_then_fetch_aux A G send_frame get_frame cenv senv cfiles sfiles
    kc ks fuel hfs hfg hc hs hA hG hA0 hG0 hkc hks hAf hGf
  refine ⟨cfiles.write GET_FILE_NAME G, sfiles.write SEND_FILE_NAME A, ?_, ?_, ?_, ?_, ?_, ?_⟩
  · simp only [deposit_then_fetch, h1, h2]
  · simp [Files.write]
  · rw [write_get_send]; exact hG
  · simp [Files.write]
  · simp only [Files.write]
    rw [if_neg (by decide)]
    exact hA
  · simp [Files.write]

theorem deposit_then_fetch_returns_server_get_file_witness :
    strcmp send_request_frame SEND_COMMAND_NAME = 0 ∧ strcmp get_request GET_COMMAND_NAME = 0 ∧
    calm.cooperates 0 ∧ client_dir SEND_FILE_NAME = some [97, 10] ∧
    server_dir GET_FILE_NAME = some [98, 10] ∧ 0 ∉ [97, 10] ∧ 0 ∉ [98, 10] ∧ 0 < 3 ∧
    [97, 10].length < 3 ∧ [98, 10].length < 3 ∧
    ∃ c2 s2, deposit_then_fetch 3 send_request_frame get_request calm calm client_dir server_dir =
        some (c2, s2) ∧
      s2 SEND_FILE_NAME = some [97, 10] ∧ s2 GET_FILE_NAME = some [98, 10] ∧
      c2 GET_FILE_NAME = some [98, 10] ∧ c2 SEND_FILE_NAME = some [97, 10] ∧
      (c2 GET_FILE_NAME = some [97, 10] ↔ [98, 10] = [97, 10]) :=
  ⟨by decide, by decide, calm_cooperates, by decide, by decide, by decide, by decide, by decide,
    by decide, by decide,
    deposit_then_fetch_returns_server_get_file [97, 10] [98, 10] send_request_frame get_request
      calm calm client_dir server_dir 0 0 3 (by decide) (by decide) calm_cooperates
      calm_cooperates (by decide) (by decide) (by decide) (by decide) (by decide) (by decide)
      (by decide) (by decide)⟩

set_option maxRecDepth 1000000 in
/-- Claim C6 as written fails: the client deposits `a`, newline; the server's
`get.txt` holds `b`, newline; the fetch that follows leaves `b`, newline in
the client's `get.txt`. And where both peers hold `A`, a zero byte, `B` in
both files, the deposit leaves `A` alone in the server's `send.txt` and the
fetch `A` alone in the client's `get.txt`. -/
theorem deposit_then_fetch_returns_other_content :
    client_dir SEND_FILE_NAME = some [97, 10] ∧
    (deposit_then_fetch 3 send_request_frame get_request calm calm client_dir server_dir).bind
      (fun fs => fs.1 GET_FILE_NAME) = some [98, 10] ∧
    binary_dir SEND_FILE_NAME = some [65, 0, 66] ∧
    binary_dir GET_FILE_NAME = some [65, 0, 66] ∧
    (deposit_then_fetch 4 send_request_frame get_request calm calm binary_dir binary_dir).bind
      (fun fs => fs.2 SEND_FILE_NAME) = some [65] ∧
    (deposit_then_fetch 4 send_request_frame get_request calm calm binary_dir binary_dir).bind
      (fun fs => fs.1 GET_FILE_NAME) = some [65] :=
  ⟨rfl, rfl, rfl, rfl, rfl, rfl⟩


/-! ### The command frame -/

theorem retry_actions_connect (s : Socket) (port : Nat) (r : Retry) :
    (retry_actions s port r).any Action.is_connect = true := by
  simp [retry_actions, Action.is_connect]

theorem strcmp_get_frame (rest : List Nat) :
    strcmp ([71, 69, 84, 0] ++ rest) GET_COMMAND_NAME = 0 := by
  simp [strcmp, GET_COMMAND_NAME]

theorem strcmp_send_frame (rest : List Nat) :
    strcmp ([83, 69, 78, 68, 0] ++ rest) SEND_COMMAND_NAME = 0 := by
  simp [strcmp, SEND_COMMAND_NAME]

theorem server_get_connects (fuel : Nat) (env : Env) (ack : List Nat) (port : Nat)
    (files : Files) (p : Proc) (hg : strcmp ack GET_COMMAND_NAME = 0)
    (h : Server.process_request fuel env ack port files = some p) :
    p.trace.any Action.is_connect = true := by
  simp only [Server.process_request, hg, if_true] at h
  split at h
  · cases h
  · split at h
    · injection h with h
      subst h
      simp [retry_actions_connect]
    · split at h
      · cases h
      · injection h with h
        subst h
        simp [retry_actions_connect]

theorem client_send_connects (fuel : Nat) (env : Env) (ack : List Nat)
    (files : Files) (p : Proc) (hs : strcmp ack SEND_COMMAND_NAME = 0)
    (h : Client.process_request fuel env ack files = some p) :
    p.trace.any Action.is_connect = true := by
  simp only [Client.process_request, strcmp_send_not_get ack hs, hs, if_true, if_false] at h
  split at h
  · cases h
  · split at h
    · injection h with h
      subst h
      simp [retry_actions_connect]
    · split at h
      · cases h
      · injection h with h
        subst h
        simp [retry_actions_connect]

theorem client_get_listens (fuel : Nat) (env : Env) (ack : List Nat)
    (files : Files) (p : Proc) (hg : strcmp ack GET_COMMAND_NAME = 0)
    (h : Client.process_request fuel env ack files = some p) :
    p.trace.any Action.is_passive = true := by
  simp only [Client.process_request, hg, if_true] at h
  split at h
  · injection h with h; subst h; simp [Action.is_passive]
  · split at h
    · injection h with h; subst h; simp [Action.is_passive]
    · split at h
      · cases h
      · injection h with h; subst h; simp [Action.is_passive]

theorem server_send_listens (fuel : Nat) (env : Env) (ack : List Nat) (port : Nat)
    (files : Files) (p : Proc) (hs : strcmp ack SEND_COMMAND_NAME = 0)
    (h : Server.process_request fuel env ack port files = some p) :
    p.trace.any Action.is_passive = true := by
  simp only [Server.process_request, strcmp_send_not_get ack hs, hs, if_true, if_false] at h
  split at h
  · injection h with h; subst h; simp [Action.is_passive]
  · split at h
    · injection h with h; subst h; simp [Action.is_passive]
    · split at h
      · cases h
      · injection h with h; subst h; simp [Action.is_passive]

theorem strcpy_cstr (dst src : List Nat) : cstr (strcpy dst src) = cstr src := by
  simp only [strcpy, cstr, List.append_assoc, List.singleton_append]
  rw [List.takeWhile_append_of_pos]
  · simp
  · intro x hx
    have := List.mem_takeWhile_imp hx
    simpa using this

/-- Claim C11 as amended (command frame). A frame that holds `GET` and then a
zero byte, whatever follows, compares equal to `GET`: in every environment
the server's `process_request` takes the fetch branch (it connects) and the
client's too (it listens). A frame that holds `SEND` and then a zero byte
compares equal to `SEND` and not to `GET`: the client connects and the server
listens. The request the client's `main` builds with `strcpy` is such a
frame. -/
theorem null_terminated_token_dispatches (rest : List Nat) :
    (strcmp ([71, 69, 84, 0] ++ rest) GET_COMMAND_NAME = 0 ∧
      ∀ (fuel : Nat) (env : Env) (files : Files) (p : Proc),
        (Server.main_process_request fuel env ([71, 69, 84, 0] ++ rest) files = some p →
          p.trace.any Action.is_connect = true) ∧
        (Client.process_request fuel env ([71, 69, 84, 0] ++ rest) files = some p →
          p.trace.any Action.is_passive = true)) ∧
    (strcmp ([83, 69, 78, 68, 0] ++ rest) SEND_COMMAND_NAME = 0 ∧
      strcmp ([83, 69, 78, 68, 0] ++ rest) GET_COMMAND_NAME ≠ 0 ∧
      ∀ (fuel : Nat) (env : Env) (files : Files) (p : Proc),
        (Client.process_request fuel env ([83, 69, 78, 68, 0] ++ rest) files = some p →
          p.trace.any Action.is_connect = true) ∧
        (Server.main_process_request fuel env ([83, 69, 78, 68, 0] ++ rest) files = some p →
          p.trace.any Action.is_passive = true)) ∧
    (∀ argv2 request frame : List Nat, Client.main_request argv2 request = some frame →
      (strcmp argv2 GET_COMMAND_NAME = 0 ∧ strcmp frame GET_COMMAND_NAME = 0 ∧
        frame = [71, 69, 84, 0] ++ request.drop 4) ∨
      (strcmp argv2 SEND_COMMAND_NAME = 0 ∧ strcmp frame SEND_COMMAND_NAME = 0 ∧
        frame = [83, 69, 78, 68, 0] ++ request.drop 5)) := by
  refine ⟨⟨strcmp_get_frame rest, fun fuel env files p => ⟨?_, ?_⟩⟩,
    ⟨strcmp_send_frame rest, strcmp_send_not_get _ (strcmp_send_frame rest),
      fun fuel env files p => ⟨?_, ?_⟩⟩, ?_⟩
  · exact server_get_connects fuel env _ _ files p (strcmp_get_frame rest)
  · exact client_get_listens fuel env _ files p (strcmp_get_frame rest)
  · exact client_send_connects fuel env _ files p (strcmp_send_frame rest)
  · exact server_send_listens fuel env _ _ files p (strcmp_send_frame rest)
  · intro argv2 request frame h
    simp only [Client.main_request] at h
    split at h
    · rename_i hc
      injection h with h
      subst h
      rcases hc with hc | hc
      · left
        have hcs := (strcmp_eq_zero_iff _ _).mp hc
        rw [cstr_get] at hcs
        refine ⟨hc, ?_, ?_⟩
        · rw [strcmp_eq_zero_iff, strcpy_cstr, cstr_get]; exact hcs
        · simp [strcpy, hcs]
      · right
        have hcs := (strcmp_eq_zero_iff _ _).mp hc
        rw [cstr_send] at hcs
        refine ⟨hc, ?_, ?_⟩
        · rw [strcmp_eq_zero_iff, strcpy_cstr, cstr_send]; exact hcs
        · simp [strcpy, hcs]
    · cases h

/-- Claim C11 as written fails: the 80-byte frame `GET` followed by 77 blanks
and the 80-byte frame `SEND` followed by 76 blanks are not recognised;
`process_request` of the server and of the client does nothing on them. -/
theorem blank_padded_token_not_recognised :
    get_blanks.length = 80 ∧ get_blanks.take 3 = [71, 69, 84] ∧
    (∀ b ∈ get_blanks.drop 3, b = 0 ∨ b = 32) ∧
    (Server.main_process_request 1 calm get_blanks server_dir).map (·.trace) = some [] ∧
    (Client.process_request 1 calm get_blanks client_dir).map (·.trace) = some [] ∧
    send_blanks.length = 80 ∧ send_blanks.take 4 = [83, 69, 78, 68] ∧
    (∀ b ∈ send_blanks.drop 4, b = 0 ∨ b = 32) ∧
    (Server.main_process_request 1 calm send_blanks server_dir).map (·.trace) = some [] ∧
    (Client.process_request 1 calm send_blanks client_dir).map (·.trace) = some [] := by
  refine ⟨by decide, by decide, by decide, ?_, ?_, by decide, by decide, by decide, ?_, ?_⟩ <;> rfl


/-! ### The blocks `send_file` sends -/

theorem fgets_line_eq_take (n : Nat) (fp : List Nat) :
    fgets_line n fp =
      if 10 ∈ fp.take n then (fp.take n).take ((fp.take n).indexOf 10 + 1) else fp.take n := by
  induction n generalizing fp with
  | zero => simp [fgets_line]
  | succ n ih =>
    cases fp with
    | nil => simp [fgets_line]
    | cons b rest =>
      simp only [fgets_line, List.take_succ_cons]
      by_cases hb : b = 10
      · subst hb
        simp
      · have hb' : (10 : Nat) ≠ b := fun h => hb h.symm
        rw [if_neg hb, ih rest, List.indexOf_cons_ne _ hb]
        by_cases hm : 10 ∈ rest.take n
        · simp [hm]
        · simp [hm, hb']

theorem fgets_line_eq_spec_chunk (fp : List Nat) :
    fgets_line (FILE_BUFLEN - 1) fp = spec_chunk fp := by
  rw [fgets_line_eq_take]
  rfl

theorem send_file_loop_chunks (send_ok : Nat → Bool) (hok : ∀ i, send_ok i = true)
    (fuel n : Nat) (st : SendState) (hdata : st.data = List.replicate FILE_BUFLEN 0)
    (hfuel : st.fp.length < fuel) (hn : st.fp.length ≤ n) :
    send_file_loop send_ok fuel st =
      .returned ⟨st.wire ++ (spec_chunks n st.fp).map pad, false⟩ ∧
    (spec_chunks n st.fp).flatten = st.fp := by
  induction fuel generalizing st n with
  | zero => omega
  | succ fuel ih =>
    obtain ⟨data, fp, wire⟩ := st
    simp only at hdata hfuel hn
    subst hdata
    cases fp with
    | nil =>
      cases n <;> simp [send_file_loop, fgets, spec_chunks]
    | cons b rest =>
      cases n with
      | zero => simp at hn
      | succ n =>
        have hpos := fgets_line_pos (FILE_BUFLEN - 1 - 1) b rest
        have hle := fgets_line_length_le (FILE_BUFLEN - 1) (b :: rest)
        have hpre := fgets_line_append_drop (FILE_BUFLEN - 1) (b :: rest)
        have e : FILE_BUFLEN - 1 - 1 + 1 = FILE_BUFLEN - 1 := by decide
        rw [e] at hpos
        rw [fgets_line_eq_spec_chunk] at hpos hle hpre
        have hsp := fgets_line_eq_spec_chunk (b :: rest)
        generalize hline : spec_chunk (b :: rest) = line at hpos hle hpre hsp
        have hlt : line.length < FILE_BUFLEN := by
          have : FILE_BUFLEN - 1 < FILE_BUFLEN := by decide
          omega
        have hd1 : ((b :: rest).drop line.length).length < fuel := by
          simp only [List.length_drop, List.length_cons] at hfuel ⊢
          omega
        have hd2 : ((b :: rest).drop line.length).length ≤ n := by
          simp only [List.length_drop, List.length_cons] at hn ⊢
          omega
        obtain ⟨h1, h2⟩ := ih n
          { data := List.replicate FILE_BUFLEN 0, fp := (b :: rest).drop line.length,
            wire := wire ++ [pad line] } rfl hd1 hd2
        have hs : send (pad line) FILE_BUFLEN = pad line := by
          simp only [send]
          exact List.take_of_length_le (by rw [pad_length line hlt])
        have hz : bzero (pad line) FILE_BUFLEN = List.replicate FILE_BUFLEN 0 := by
          simp only [bzero, pad_length line hlt, min_self]
          rw [List.drop_of_length_le (by rw [pad_length line hlt])]
          simp
        constructor
        · simp only [send_file_loop, fgets, hsp, hok, Bool.true_eq_false, if_false,
            fgets_zeroed line hlt, hs, hz, h1, spec_chunks, hline]
          simp
        · simp only [spec_chunks, hline, List.flatten_cons, h2]
          exact hpre

theorem spec_chunks_length_le (n : Nat) (fp : List Nat) : (spec_chunks n fp).length ≤ n := by
  induction n generalizing fp with
  | zero => simp [spec_chunks]
  | succ n ih =>
    cases fp with
    | nil => simp [spec_chunks]
    | cons b rest =>
      simp only [spec_chunks, List.length_cons]
      have := ih ((b :: rest).drop (spec_chunk (b :: rest)).length)
      omega

theorem spec_chunks_bounds (n : Nat) (fp : List Nat) :
    ∀ c ∈ spec_chunks n fp, 0 < c.length ∧ c.length < FILE_BUFLEN := by
  induction n generalizing fp with
  | zero => simp [spec_chunks]
  | succ n ih =>
    cases fp with
    | nil => simp [spec_chunks]
    | cons b rest =>
      intro c hc
      simp only [spec_chunks, List.mem_cons] at hc
      rcases hc with rfl | hc
      · have hpos := fgets_line_pos (FILE_BUFLEN - 1 - 1) b rest
        have hle := fgets_line_length_le (FILE_BUFLEN - 1) (b :: rest)
        have e : FILE_BUFLEN - 1 - 1 + 1 = FILE_BUFLEN - 1 := by decide
        rw [e] at hpos
        rw [fgets_line_eq_spec_chunk] at hpos hle
        have : FILE_BUFLEN - 1 < FILE_BUFLEN := by decide
        exact ⟨hpos, by omega⟩
      · exact ih _ c hc

/-- Claim C15 (wire format of the sender). When every `send` succeeds,
`send_file` returns having sent, for each chunk of the file in turn (the
longest start of what is left that has at most 1023 bytes and ends right
after its first newline if there is one), one block of exactly 1024 bytes:
the chunk, then zero bytes. The chunks put end to end are the file, the
bytes sent number 1024 times the chunks, and an empty file is sent as no
block at all. -/
theorem send_file_wire_format (send_ok : Nat → Bool) (hok : ∀ i, send_ok i = true)
    (file : List Nat) :
    send_file send_ok file = .returned ⟨(spec_chunks file.length file).map pad, false⟩ ∧
    (spec_chunks file.length file).flatten = file ∧
    (∀ c ∈ spec_chunks file.length file, 0 < c.length ∧ c.length < FILE_BUFLEN) ∧
    (∀ b ∈ spec_wire file, b.length = FILE_BUFLEN) ∧
    (spec_wire file).flatten.length = FILE_BUFLEN * (spec_chunks file.length file).length ∧
    send_file send_ok [] = .returned ⟨[], false⟩ := by
  obtain ⟨h1, h2⟩ := send_file_loop_chunks send_ok hok (file.length + 1) file.length
    { data := List.replicate FILE_BUFLEN 0, fp := file, wire := [] } rfl (Nat.lt_succ_self _)
    (le_refl _)
  have hb := spec_chunks_bounds file.length file
  have hlen : ∀ b ∈ spec_wire file, b.length = FILE_BUFLEN := by
    intro b hb'
    obtain ⟨c, hc, rfl⟩ := List.mem_map.mp hb'
    exact pad_length c (hb c hc).2
  refine ⟨by simpa [send_file] using h1, h2, hb, hlen, ?_, ?_⟩
  · rw [List.length_flatten]
    have : (spec_wire file).map List.length =
        List.replicate (spec_chunks file.length file).length FILE_BUFLEN := by
      rw [List.eq_replicate_iff]
      refine ⟨by simp [spec_wire], ?_⟩
      intro x hx
      obtain ⟨b, hb', rfl⟩ := List.mem_map.mp hx
      exact hlen b hb'
    rw [this, List.sum_replicate]
    simp [Nat.mul_comm]
  · simp [send_file, send_file_loop, fgets]

theorem send_file_wire_format_witness :
    (∀ i, (fun _ : Nat => true) i = true) ∧
    send_file (fun _ => true) [97, 10, 98] =
      .returned ⟨(spec_chunks [97, 10, 98].length [97, 10, 98]).map pad, false⟩ ∧
    (spec_chunks [97, 10, 98].length [97, 10, 98]).flatten = [97, 10, 98] ∧
    (∀ c ∈ spec_chunks [97, 10, 98].length [97, 10, 98], 0 < c.length ∧ c.length < FILE_BUFLEN) ∧
    (∀ b ∈ spec_wire [97, 10, 98], b.length = FILE_BUFLEN) ∧
    (spec_wire [97, 10, 98]).flatten.length =
      FILE_BUFLEN * (spec_chunks [97, 10, 98].length [97, 10, 98]).length ∧
    send_file (fun _ => true) [] = .returned ⟨[], false⟩ :=
  ⟨fun _ => rfl, send_file_wire_format (fun _ => true) (fun _ => rfl) [97, 10, 98]⟩


/-! ### Transfer block by block -/

theorem write_file_loop_blocks_then (cs : List (List Nat))
    (hcs : ∀ c ∈ cs, c.length < FILE_BUFLEN ∧ 0 ∉ c) (tail : Sock)
    (htail : (recv tail (FILE_BUFLEN : Int)).n ≤ 0) (m : Nat) (st : WriteState)
    (hbuf : st.buffer.length = FILE_BUFLEN) (hsock : st.sock = deliver (cs.map pad) ++ tail) :
    ∃ w, write_file_loop (cs.length + (m + 1)) st = .returned w ∧
      w.file = st.file ++ cs.flatten ∧ w.overrun = st.overrun ∧
      w.n = (recv tail (FILE_BUFLEN : Int)).n ∧
      w.log = st.log ++ cs.map (fun c => ⟨(FILE_BUFLEN : Int), pad c, c⟩) := by
  induction cs generalizing st with
  | nil =>
    obtain ⟨buffer, n, sock, file, log, overrun⟩ := st
    simp only [deliver, List.map_nil, List.nil_append] at hsock
    subst hsock
    refine ⟨{ buffer := store buffer 0 (recv sock (FILE_BUFLEN : Int)).data,
              n := (recv sock (FILE_BUFLEN : Int)).n, sock := (recv sock (FILE_BUFLEN : Int)).sock,
              file := file, log := log, overrun := overrun }, ?_, ?_⟩
    · simp only [List.length_nil, Nat.zero_add, write_file_loop, htail, if_true]
    · simp
  | cons c cs ih =>
    obtain ⟨buffer, n, sock, file, log, overrun⟩ := st
    simp only [deliver, List.map_cons, List.cons_append] at hsock hbuf
    subst hsock
    obtain ⟨hlt, h0⟩ := hcs c (List.mem_cons_self _ _)
    have hsz : size_t ((FILE_BUFLEN : Nat) : Int) = FILE_BUFLEN := by decide
    have hpl := pad_length c hlt
    have e : (c :: cs).length + (m + 1) = (cs.length + (m + 1)) + 1 := by
      simp only [List.length_cons]; omega
    have hst : store buffer 0 (pad c) = pad c := store_zero_full _ _ (by rw [hpl, hbuf])
    have hz : bzero (pad c) FILE_BUFLEN = List.replicate FILE_BUFLEN 0 := by
      simp only [bzero, hpl, min_self]
      rw [List.drop_of_length_le (by rw [hpl])]
      simp
    have hpos : ¬ (((FILE_BUFLEN : Nat) : Int) ≤ 0) := by decide
    obtain ⟨w, h1, h2, h3, h4, h5⟩ := ih (fun x hx => hcs x (List.mem_cons_of_mem _ hx))
      { buffer := List.replicate FILE_BUFLEN 0, n := (FILE_BUFLEN : Int),
        sock := deliver (cs.map pad) ++ tail, file := file ++ c,
        log := log ++ [⟨(FILE_BUFLEN : Int), pad c, c⟩], overrun := overrun }
      (by simp) rfl
    refine ⟨w, ?_, ?_, ?_, h4, ?_⟩
    · rw [e]
      simp only [write_file_loop, recv, hsz, hpl, min_self, le_refl, if_true,
        List.take_of_length_le (le_of_eq hpl), hst, hpos, if_false, hz, cstr_pad c h0 hlt]
      have hov : (overrun || decide (0 ∉ pad c)) = overrun := by
        simp [zero_mem_pad c hlt]
      rw [hov]
      exact h1
    · rw [h2]; simp
    · rw [h3]
    · rw [h5]; simp

/-- Claim C14 (fidelity of a transfer block by block). For every source file
without a zero byte: when every `send` succeeds, each `recv` of `write_file`
returns one whole 1024-byte block as sent and the `recv` after the last
block returns zero or less, `write_file` returns and the bytes it has
written are the source, byte for byte. Each turn of its loop received one
block of 1024 bytes and wrote the bytes of the block before its padding, so
no padding is written, and no byte written is zero. -/
theorem aligned_transfer_writes_source (send_ok : Nat → Bool) (hok : ∀ i, send_ok i = true)
    (file : List Nat) (h0 : 0 ∉ file) (buffer : List Nat) (hbuf : buffer.length = FILE_BUFLEN)
    (tail : Sock) (htail : (recv tail (FILE_BUFLEN : Int)).n ≤ 0) :
    ∃ s w, send_file send_ok file = .returned s ∧ s.exited = false ∧
      (∀ b ∈ s.blocks, b.length = FILE_BUFLEN) ∧
      write_file (s.blocks.length + 1) buffer (deliver s.blocks ++ tail) = .returned w ∧
      w.n ≤ 0 ∧ w.file = file ∧ (∀ x ∈ w.file, x ≠ 0) ∧ w.overrun = false ∧
      w.log.map (·.data) = s.blocks ∧ (w.log.map (·.written)).flatten = file ∧
      (∀ t ∈ w.log, t.n = (FILE_BUFLEN : Int) ∧ t.written = cstr t.data ∧ 0 ∉ t.written ∧
        t.data = t.written ++ List.replicate (FILE_BUFLEN - t.written.length) 0) := by
  obtain ⟨cs, h1, h2, h3, h4⟩ := send_file_loop_blocks send_ok hok (file.length + 1)
    { data := List.replicate FILE_BUFLEN 0, fp := file, wire := [] } rfl (Nat.lt_succ_self _)
  simp only [List.nil_append] at h1 h2 h4
  have hcs : ∀ c ∈ cs, c.length < FILE_BUFLEN ∧ 0 ∉ c := by
    intro c hc
    refine ⟨(h3 c hc).2, fun hz => h0 ?_⟩
    rw [← h2]
    exact List.mem_flatten.mpr ⟨c, hc, hz⟩
  obtain ⟨w, g1, g2, g3, g4, g5⟩ := write_file_loop_blocks_then cs hcs tail htail 0
    { buffer := buffer, n := 0, sock := deliver (cs.map pad) ++ tail, file := [], log := [],
      overrun := false } hbuf rfl
  simp only [List.nil_append] at g2 g5
  refine ⟨⟨cs.map pad, false⟩, w, h1, rfl, ?_, ?_, ?_, ?_, ?_, g3, ?_, ?_, ?_⟩
  · intro b hb
    obtain ⟨c, hc, rfl⟩ := List.mem_map.mp hb
    exact pad_length c (hcs c hc).1
  · simpa [write_file] using g1
  · rw [g4]; exact htail
  · rw [g2, h2]
  · intro x hx hz
    rw [g2, h2] at hx
    exact h0 (hz ▸ hx)
  · rw [g5, List.map_map]
    rfl
  · rw [g5, List.map_map]
    have : ((fun t : WriteStep => t.written) ∘ fun c => (⟨(FILE_BUFLEN : Int), pad c, c⟩ : WriteStep))
        = id := rfl
    rw [this, List.map_id, h2]
  · intro t ht
    rw [g5] at ht
    obtain ⟨c, hc, rfl⟩ := List.mem_map.mp ht
    exact ⟨rfl, (cstr_pad c (hcs c hc).2 (hcs c hc).1).symm, (hcs c hc).2, rfl⟩

theorem aligned_transfer_writes_source_witness :
    (∀ i, (fun _ : Nat => true) i = true) ∧ 0 ∉ [97, 10, 98] ∧
    (List.replicate 1024 7).length = FILE_BUFLEN ∧
    (recv [Event.err] (FILE_BUFLEN : Int)).n ≤ 0 ∧
    ∃ s w, send_file (fun _ => true) [97, 10, 98] = .returned s ∧ s.exited = false ∧
      (∀ b ∈ s.blocks, b.length = FILE_BUFLEN) ∧
      write_file (s.blocks.length + 1) (List.replicate 1024 7)
        (deliver s.blocks ++ [Event.err]) = .returned w ∧
      w.n ≤ 0 ∧ w.file = [97, 10, 98] ∧ (∀ x ∈ w.file, x ≠ 0) ∧ w.overrun = false ∧
      w.log.map (·.data) = s.blocks ∧ (w.log.map (·.written)).flatten = [97, 10, 98] ∧
      (∀ t ∈ w.log, t.n = (FILE_BUFLEN : Int) ∧ t.written = cstr t.data ∧ 0 ∉ t.written ∧
        t.data = t.written ++ List.replicate (FILE_BUFLEN - t.written.length) 0) :=
  ⟨fun _ => rfl, by decide, List.length_replicate 1024 7, by decide,
    aligned_transfer_writes_source (fun _ => true) (fun _ => rfl) [97, 10, 98] (by decide)
      (List.replicate 1024 7) (List.length_replicate 1024 7) [Event.err] (by decide)⟩


/-! ### The loop of `write_file` on any socket -/

theorem store_zero_take (buf data : List Nat) (h : data.length ≤ buf.length) :
    store buf 0 data = data ++ buf.drop data.length := by
  apply List.ext_getElem
  · simp [store]; omega
  · intro i h1 h2
    simp only [store, List.getElem_map, List.getElem_range, zero_add, Int.sub_zero,
      Int.toNat_ofNat]
    by_cases hi : i < data.length
    · rw [if_pos ⟨by omega, by omega⟩, List.getD_eq_getElem _ _ hi, List.getElem_append_left hi]
    · rw [if_neg (by omega)]
      have hb : i < buf.length := by simpa [store] using h1
      rw [List.getD_eq_getElem _ _ hb, List.getElem_append_right (by omega)]
      simp only [List.getElem_drop]
      congr 1
      omega

theorem recv_data_stream (s : Sock) (len : Int) :
    stream s = (recv s len).data ++ stream (recv s len).sock := by
  match s with
  | [] => simp [recv, stream]
  | .err :: rest => simp [recv, stream]
  | .seg bs :: rest =>
    simp only [recv]
    split
    · rename_i h
      simp only [stream]
      rw [List.take_of_length_le h]
    · simp only [stream]
      rw [← List.append_assoc, List.take_append_drop]

theorem recv_pos_data (s : Sock) (len : Int) (h : 0 < (recv s len).n) :
    (recv s len).n = ((recv s len).data.length : Int) := by
  match s with
  | [] => simp [recv] at h
  | .err :: rest => simp [recv] at h
  | .seg bs :: rest =>
    simp only [recv, List.length_take]
    omega

theorem recv_nonpos_data (s : Sock) (len : Int) (h : (recv s len).n ≤ 0) :
    (recv s len).data = [] := by
  match s with
  | [] => simp [recv]
  | .err :: rest => simp [recv]
  | .seg bs :: rest =>
    simp only [recv] at h ⊢
    have : min (size_t len) bs.length = 0 := by omega
    rw [this]
    simp

theorem recv_data_length_le (s : Sock) :
    (recv s (FILE_BUFLEN : Int)).data.length ≤ FILE_BUFLEN := by
  have hsz : size_t ((FILE_BUFLEN : Nat) : Int) = FILE_BUFLEN := by decide
  match s with
  | [] => simp [recv]
  | .err :: rest => simp [recv]
  | .seg bs :: rest =>
    simp only [recv, hsz, List.length_take]
    omega

theorem cstr_append_of_mem (a b : List Nat) (h : 0 ∈ a) : cstr (a ++ b) = cstr a := by
  induction a with
  | nil => simp at h
  | cons x xs ih =>
    by_cases hx : x = 0
    · simp [cstr, hx]
    · have hm : 0 ∈ xs := by
        rcases List.mem_cons.mp h with h | h
        · exact absurd h.symm hx
        · exact h
      have := ih hm
      simp only [cstr] at this
      simp only [cstr, List.cons_append, List.takeWhile_cons, ne_eq, hx, not_false_eq_true,
        decide_True, if_true, this]

theorem cstr_of_not_mem (a : List Nat) (h : 0 ∉ a) : cstr a = a := by
  simp only [cstr]
  rw [List.takeWhile_eq_self_iff]
  intro x hx
  have : x ≠ 0 := fun hz => h (hz ▸ hx)
  simpa using this

theorem cstr_append_zeros (a : List Nat) (k : Nat) : cstr (a ++ List.replicate k 0) = cstr a := by
  by_cases h : 0 ∈ a
  · exact cstr_append_of_mem a _ h
  · rw [cstr_of_not_mem a h]
    simp only [cstr]
    rw [List.takeWhile_append_of_pos]
    · cases k <;> simp [List.replicate_succ]
    · intro x hx
      have : x ≠ 0 := fun hz => h (hz ▸ hx)
      simpa using this

theorem bzero_full (buf : List Nat) (h : buf.length = FILE_BUFLEN) :
    bzero buf FILE_BUFLEN = List.replicate FILE_BUFLEN 0 := by
  simp only [bzero, h, min_self]
  rw [List.drop_of_length_le (by rw [h])]
  simp

theorem write_file_loop_steps (fuel : Nat) (st w : WriteState)
    (hbuf : st.buffer.length = FILE_BUFLEN) (h : write_file_loop fuel st = .returned w) :
    w.n ≤ 0 ∧ ∃ steps : List WriteStep,
      w.log = st.log ++ steps ∧ w.file = st.file ++ (steps.map (·.written)).flatten ∧
      stream st.sock = (steps.map (·.data)).flatten ++ stream w.sock ∧
      (∀ t ∈ steps, 0 < t.n ∧ t.n = (t.data.length : Int) ∧ t.data.length ≤ FILE_BUFLEN) ∧
      (∀ t, steps.head? = some t →
        t.written = cstr (t.data ++ st.buffer.drop t.data.length)) ∧
      (∀ t ∈ steps.tail, t.written = cstr t.data) := by
  induction fuel generalizing st with
  | zero => simp [write_file_loop] at h
  | succ fuel ih =>
    simp only [write_file_loop] at h
    split at h
    · rename_i hn
      injection h with h
      subst h
      refine ⟨hn, [], by simp, by simp, ?_, by simp, by simp, by simp⟩
      simp [recv_nonpos_data _ _ hn, recv_data_stream st.sock (FILE_BUFLEN : Int)]
    · rename_i hn
      have hpos : 0 < (recv st.sock (FILE_BUFLEN : Int)).n := by omega
      have hdl := recv_data_length_le st.sock
      have hst := store_zero_take st.buffer (recv st.sock (FILE_BUFLEN : Int)).data
        (by rw [hbuf]; exact hdl)
      have hb : (store st.buffer 0 (recv st.sock (FILE_BUFLEN : Int)).data).length =
          FILE_BUFLEN := by rw [store_length, hbuf]
      rw [bzero_full _ hb] at h
      obtain ⟨h1, steps, h2, h3, h4, h5, h6, h7⟩ := ih _ (by simp) h
      simp only at h2 h3 h4 h6
      refine ⟨h1, _ :: steps, by simpa using h2, by simpa using h3, ?_, ?_, ?_, ?_⟩
      · rw [recv_data_stream st.sock (FILE_BUFLEN : Int), h4]
        simp
      · intro t ht
        rcases List.mem_cons.mp ht with rfl | ht
        · exact ⟨hpos, recv_pos_data _ _ hpos, hdl⟩
        · exact h5 t ht
      · intro t ht
        simp only [List.head?_cons, Option.some.injEq] at ht
        subst ht
        simp only [hst]
      · intro t ht
        simp only [List.tail_cons] at ht
        cases steps with
        | nil => simp at ht
        | cons s0 rest =>
          rcases List.mem_cons.mp ht with rfl | ht
          · have := h6 t rfl
            rw [this, List.drop_replicate, cstr_append_zeros]
          · exact h7 t (by simpa using ht)

theorem write_file_loop_reads (fuel : Nat) (st w : WriteState)
    (h : write_file_loop fuel st = .returned w) :
    first_stop fuel st.sock = some (w.n, w.sock) ∧
    w.log.map (·.data) = st.log.map (·.data) ++ positive_reads fuel st.sock ∧
    w.log.map (·.n) =
      st.log.map (·.n) ++ (positive_reads fuel st.sock).map (fun b => (b.length : Int)) := by
  induction fuel generalizing st with
  | zero => simp [write_file_loop] at h
  | succ fuel ih =>
    simp only [write_file_loop] at h
    split at h
    · rename_i hn
      injection h with h
      subst h
      simp [first_stop, positive_reads, hn]
    · rename_i hn
      have hpos : 0 < (recv st.sock (FILE_BUFLEN : Int)).n := by omega
      obtain ⟨h1, h2, h3⟩ := ih _ h
      simp only at h1 h2 h3
      have hreads : positive_reads (fuel + 1) st.sock =
          (recv st.sock (FILE_BUFLEN : Int)).data ::
            positive_reads fuel (recv st.sock (FILE_BUFLEN : Int)).sock := by
        simp only [positive_reads, hn, if_false]
      have hstop : first_stop (fuel + 1) st.sock =
          first_stop fuel (recv st.sock (FILE_BUFLEN : Int)).sock := by
        simp only [first_stop, hn, if_false]
      rw [hreads, hstop, h2, h3]
      refine ⟨h1, by simp, ?_⟩
      simp [recv_pos_data _ _ hpos]

theorem positive_reads_bounds (fuel : Nat) (s : Sock) :
    ∀ b ∈ positive_reads fuel s, 0 < b.length ∧ b.length ≤ FILE_BUFLEN := by
  induction fuel generalizing s with
  | zero => simp [positive_reads]
  | succ fuel ih =>
    intro b hb
    simp only [positive_reads] at hb
    split at hb
    · simp at hb
    · rename_i hn
      have hpos : 0 < (recv s (FILE_BUFLEN : Int)).n := by omega
      rcases List.mem_cons.mp hb with rfl | hb
      · have := recv_pos_data _ _ hpos
        exact ⟨by omega, recv_data_length_le s⟩
      · exact ih _ b hb

theorem write_file_loop_strings (fuel : Nat) (st w : WriteState)
    (hbuf : st.buffer.length = FILE_BUFLEN) (h : write_file_loop fuel st = .returned w)
    (hc : ∀ i b, (positive_reads fuel st.sock)[i]? = some b →
      0 ∈ b ∨ ((0 < i ∨ st.buffer = List.replicate FILE_BUFLEN 0) ∧ b.length < FILE_BUFLEN)) :
    w.overrun = st.overrun ∧
    w.file = st.file ++ ((positive_reads fuel st.sock).map cstr).flatten ∧
    w.log.map (·.written) =
      st.log.map (·.written) ++ (positive_reads fuel st.sock).map cstr := by
  induction fuel generalizing st with
  | zero => simp [write_file_loop] at h
  | succ fuel ih =>
    simp only [write_file_loop] at h
    split at h
    · rename_i hn
      injection h with h
      subst h
      simp [positive_reads, hn]
    · rename_i hn
      have hdl := recv_data_length_le st.sock
      have hst := store_zero_take st.buffer (recv st.sock (FILE_BUFLEN : Int)).data
        (by rw [hbuf]; exact hdl)
      have hb : (store st.buffer 0 (recv st.sock (FILE_BUFLEN : Int)).data).length =
          FILE_BUFLEN := by rw [store_length, hbuf]
      rw [bzero_full _ hb] at h
      have hreads : positive_reads (fuel + 1) st.sock =
          (recv st.sock (FILE_BUFLEN : Int)).data ::
            positive_reads fuel (recv st.sock (FILE_BUFLEN : Int)).sock := by
        simp only [positive_reads, hn, if_false]
      rw [hreads] at hc ⊢
      have h0 := hc 0 _ (List.getElem?_cons_zero ..)
      have hcs : cstr (store st.buffer 0 (recv st.sock (FILE_BUFLEN : Int)).data) =
            cstr (recv st.sock (FILE_BUFLEN : Int)).data ∧
          0 ∈ store st.buffer 0 (recv st.sock (FILE_BUFLEN : Int)).data := by
        rw [hst]
        rcases h0 with h0 | ⟨h0, hlt⟩
        · exact ⟨cstr_append_of_mem _ _ h0, List.mem_append_left _ h0⟩
        · rcases h0 with h0 | h0
          · omega
          · rw [h0, List.drop_replicate]
            refine ⟨cstr_append_zeros _ _, List.mem_append_right _ ?_⟩
            rw [List.mem_replicate]
            exact ⟨by omega, rfl⟩
      obtain ⟨g1, g2, g3⟩ := ih _ (List.length_replicate _ _) h (by
        intro i b hib
        rcases hc (i + 1) b (by simpa using hib) with h1 | ⟨_, h1⟩
        · exact Or.inl h1
        · exact Or.inr ⟨Or.inr rfl, h1⟩)
      simp only at g1 g2 g3
      refine ⟨?_, ?_, ?_⟩
      · rw [g1]; simp [hcs.2]
      · rw [g2, hcs.1]; simp
      · rw [g3, hcs.1]; simp

/-- Claim C13 as amended (the receiving loop). On every socket, given enough
turns, `write_file` returns, and its calls of `recv` are exactly these: one
for each block that `recv` delivers with `n > 0`, in order, then the first
call that returns zero or less, at which it stops with that value in `n` and
the socket as that call left it, whatever is still to come. Every block has
between 1 and 1024 bytes and the blocks are consecutive bytes of the stream.
A turn whose block holds a zero byte writes the bytes before the first zero
byte; a turn after the first whose block has fewer than 1024 bytes, none
zero, writes the block whole. When every block is of one of these two kinds,
no `fprintf` runs past the array and the file is the C strings of the blocks
put end to end in order. -/
theorem write_file_appends_strings (fuel : Nat) (buffer : List Nat) (sockfd : Sock)
    (hbuf : buffer.length = FILE_BUFLEN) (hfuel : sock_size sockfd < fuel) :
    ∃ w, write_file fuel buffer sockfd = .returned w ∧
      first_stop fuel sockfd = some (w.n, w.sock) ∧ w.n ≤ 0 ∧
      w.log.map (·.data) = positive_reads fuel sockfd ∧
      w.log.map (·.n) = (positive_reads fuel sockfd).map (fun b => (b.length : Int)) ∧
      (∀ b ∈ positive_reads fuel sockfd, 0 < b.length ∧ b.length ≤ FILE_BUFLEN) ∧
      stream sockfd = (positive_reads fuel sockfd).flatten ++ stream w.sock ∧
      (∀ t ∈ w.log, 0 ∈ t.data → t.written = cstr t.data) ∧
      (∀ t ∈ w.log.tail, 0 ∉ t.data → t.data.length < FILE_BUFLEN → t.written = t.data) ∧
      ((∀ i b, (positive_reads fuel sockfd)[i]? = some b →
          0 ∈ b ∨ (0 < i ∧ b.length < FILE_BUFLEN)) →
        w.overrun = false ∧
        w.log.map (·.written) = (positive_reads fuel sockfd).map cstr ∧
        w.file = ((positive_reads fuel sockfd).map cstr).flatten) := by
  obtain ⟨w, hw⟩ := write_file_loop_returns fuel
    { buffer := buffer, n := 0, sock := sockfd, file := [], log := [], overrun := false } hfuel
  obtain ⟨h1, steps, h2, h3, h4, h5, h6, h7⟩ := write_file_loop_steps fuel _ w hbuf hw
  obtain ⟨r1, r2, r3⟩ := write_file_loop_reads fuel _ w hw
  simp only [List.nil_append, List.map_nil] at h2 h3 h4 h6 r1 r2 r3
  subst h2
  refine ⟨w, hw, r1, h1, r2, r3, positive_reads_bounds fuel sockfd, ?_, ?_, ?_, ?_⟩
  · rw [← r2]; exact h4
  · intro t ht h0
    cases hlog : w.log with
    | nil => rw [hlog] at ht; simp at ht
    | cons s0 rest =>
      rw [hlog] at ht h6 h7
      rcases List.mem_cons.mp ht with rfl | ht
      · rw [h6 t rfl]
        exact cstr_append_of_mem _ _ h0
      · exact h7 t (by simpa using ht)
  · intro t ht h0 _
    rw [h7 t ht]
    exact cstr_of_not_mem _ h0
  · intro hc
    obtain ⟨g1, g2, g3⟩ := write_file_loop_strings fuel _ w hbuf hw (by
      intro i b hib
      rcases hc i b hib with h | ⟨h, h'⟩
      · exact Or.inl h
      · exact Or.inr ⟨Or.inl h, h'⟩)
    simp only [List.nil_append, List.map_nil] at g1 g2 g3
    exact ⟨g1, g3, g2⟩

theorem write_file_appends_strings_witness :
    (List.replicate 1024 7).length = FILE_BUFLEN ∧
    sock_size [Event.seg [104, 0, 105], Event.seg [65, 66], Event.err, Event.seg [67]] < 12 ∧
    positive_reads 12 [Event.seg [104, 0, 105], Event.seg [65, 66], Event.err, Event.seg [67]] =
      [[104, 0, 105], [65, 66]] ∧
    ∃ w, write_file 12 (List.replicate 1024 7)
        [Event.seg [104, 0, 105], Event.seg [65, 66], Event.err, Event.seg [67]] =
        .returned w ∧
      w.n = -1 ∧ w.sock = [Event.seg [67]] ∧
      w.log.map (·.data) = [[104, 0, 105], [65, 66]] ∧ w.log.map (·.n) = [3, 2] ∧
      w.log.map (·.written) = [[104], [65, 66]] ∧ w.file = [104, 65, 66] ∧
      w.overrun = false := by
  have hr : positive_reads 12
      [Event.seg [104, 0, 105], Event.seg [65, 66], Event.err, Event.seg [67]] =
      [[104, 0, 105], [65, 66]] := by decide
  have hs : first_stop 12
      [Event.seg [104, 0, 105], Event.seg [65, 66], Event.err, Event.seg [67]] =
      some (-1, [Event.seg [67]]) := by decide
  obtain ⟨w, h1, h2, _, h4, h5, _, _, _, _, h10⟩ :=
    write_file_appends_strings 12 (List.replicate 1024 7)
      [Event.seg [104, 0, 105], Event.seg [65, 66], Event.err, Event.seg [67]]
      (List.length_replicate 1024 7) (by decide)
  rw [hs] at h2
  rw [hr] at h4 h5 h10
  injection h2 with h2
  injection h2 with hn hsk
  obtain ⟨g1, g2, g3⟩ := h10 (by
    intro i b hb
    match i with
    | 0 =>
      simp only [List.getElem?_cons_zero, Option.some.injEq] at hb
      subst hb
      exact Or.inl (by decide)
    | 1 =>
      simp only [List.getElem?_cons_succ, List.getElem?_cons_zero, Option.some.injEq] at hb
      subst hb
      exact Or.inr ⟨by decide, by decide⟩
    | i + 2 => simp at hb)
  exact ⟨List.length_replicate 1024 7, by decide, hr, w, h1, hn.symm, hsk.symm, h4, h5, g2, g3, g1⟩

set_option maxRecDepth 1000000 in
/-- Claim C13 as written fails. The file `h`, `i`, newline reaches the
receiver as one `recv` of 1024 bytes, the block `send_file` sent, and
`write_file` writes 3 bytes, not the 1024 received; and of a `recv` of the
3 bytes `A`, zero, `B` it writes `A` alone. -/
theorem write_file_drops_received_bytes :
    (sent_blocks [104, 105, 10]).map List.length = [1024] ∧
    written 2 (List.replicate 1024 0) (deliver (sent_blocks [104, 105, 10])) =
      some [104, 105, 10] ∧
    written 2 (List.replicate 1024 0) [Event.seg [65, 0, 66]] = some [65] :=
  ⟨rfl, rfl, rfl⟩


/-! ### The sockets left open -/

theorem open_after_append (fds : List Socket) (l1 l2 : List Step) :
    open_after fds (l1 ++ l2) = open_after (open_after fds l1) l2 := by
  simp [open_after, List.foldl_append]

theorem open_after_retry (fds : List Socket) (s : Socket) (port : Nat) (r : Retry) :
    open_after fds ((retry_actions s port r).map Step.act) = fds := by
  simp only [retry_actions, List.map_append, open_after_append]
  have h1 : ∀ (l : List Nat) (fds : List Socket),
      open_after fds ((l.map fun d => [Action.connect s port false, Action.sleep d]).flatten.map
        Step.act) = fds := by
    intro l
    induction l with
    | nil => intro fds; rfl
    | cons d l ih =>
      intro fds
      simp only [List.map_cons, List.flatten_cons, List.map_append, open_after_append]
      rw [ih]
      rfl
  rw [h1]
  rfl

theorem server_trace_cases (fuel : Nat) (env : Env) (ack : List Nat) (port : Nat)
    (files : Files) (p : Proc) (h : Server.process_request fuel env ack port files = some p) :
    p.trace.any Action.is_exit = true ∨
    (strcmp ack GET_COMMAND_NAME = 0 ∧ ∃ r, p.trace = retry_actions .data port r ++
      [.fopen GET_FILE_NAME "r" true, .send_file .data, .close .data]) ∨
    (strcmp ack GET_COMMAND_NAME ≠ 0 ∧ strcmp ack SEND_COMMAND_NAME = 0 ∧
      p.trace = [.listen .data 5 true, .accept .data true, .fopen SEND_FILE_NAME "w" true,
                 .write_file .data_conn, .close .data_conn, .close .data]) ∨
    (strcmp ack GET_COMMAND_NAME ≠ 0 ∧ strcmp ack SEND_COMMAND_NAME ≠ 0 ∧ p.trace = []) := by
  unfold Server.process_request at h
  split at h
  · rename_i hg
    split at h
    · cases h
    · rename_i r _
      split at h
      · injection h with h
        subst h
        left
        simp [Action.is_exit]
      · split at h
        · cases h
        · rename_i s _
          injection h with h
          subst h
          cases hs : s.exited
          · right; left
            exact ⟨hg, r, by simp⟩
          · left
            simp [Action.is_exit]
  · rename_i hg
    split at h
    · rename_i hs
      split at h
      · injection h with h; subst h; left; simp [Action.is_exit]
      · split at h
        · injection h with h; subst h; left; simp [Action.is_exit]
        · split at h
          · cases h
          · injection h with h
            subst h
            right; right; left
            exact ⟨hg, hs, rfl⟩
    · rename_i hs
      injection h with h
      subst h
      right; right; right
      exact ⟨hg, hs, rfl⟩

theorem client_trace_cases (fuel : Nat) (env : Env) (ack : List Nat)
    (files : Files) (p : Proc) (h : Client.process_request fuel env ack files = some p) :
    p.trace.any Action.is_exit = true ∨
    (∃ r, p.trace = retry_actions .data SERVER_DATA_CHANNEL_PORT r ++
      [.fopen SEND_FILE_NAME "r" true, .send_file .data, .close .data]) ∨
    p.trace = [.listen .data 5 true, .accept .data true, .fopen GET_FILE_NAME "w" true,
               .write_file .data_conn, .close .data_conn, .close .data] ∨
    p.trace = [] := by
  unfold Client.process_request at h
  split at h
  · split at h
    · injection h with h; subst h; left; simp [Action.is_exit]
    · split at h
      · injection h with h; subst h; left; simp [Action.is_exit]
      · split at h
        · cases h
        · injection h with h
          subst h
          right; right; left
          rfl
  · split at h
    · split at h
      · cases h
      · rename_i r _
        split at h
        · injection h with h
          subst h
          left
          simp [Action.is_exit]
        · split at h
          · cases h
          · rename_i s _
            injection h with h
            subst h
            cases hs : s.exited
            · right; left
              exact ⟨r, by simp⟩
            · left
              simp [Action.is_exit]
    · injection h with h
      subst h
      right; right; right
      rfl

theorem any_is_exit_map_act (l : List Action) :
    (l.map Step.act).any Step.is_exit = l.any Action.is_exit := by
  induction l with
  | nil => rfl
  | cons a l ih => simp [Step.is_exit, ih]

theorem retry_actions_no_exit (s : Socket) (port : Nat) (r : Retry) :
    (retry_actions s port r).any Action.is_exit = false := by
  simp only [retry_actions, List.any_append, List.any_cons, List.any_nil, Action.is_exit,
    Bool.or_false, Bool.or_eq_false_iff, and_true]
  rw [List.any_eq_false]
  intro a ha
  obtain ⟨l, hl, hal⟩ := List.mem_flatten.mp ha
  obtain ⟨d, _, rfl⟩ := List.mem_map.mp hl
  simp only [List.mem_cons, List.mem_singleton, List.not_mem_nil, or_false] at hal
  rcases hal with rfl | rfl <;> simp [Action.is_exit]

theorem server_iteration_trace (fuel : Nat) (m : MainEnv) (files : Files) (tr : List Step)
    (rs : ServerAck) (h : Server.main_iteration fuel m files = some tr)
    (hx : tr.any Step.is_exit = false)
    (hrs : receive_client_request fuel m.ack_request m.control_in = .returned rs) :
    ∃ p, Server.main_process_request fuel m.env rs.ack_request files = some p ∧
      p.trace.any Action.is_exit = false ∧
      tr = Server.control_steps ++ [.socket .data true, .bind .data SERVER_DATA_CHANNEL_PORT true] ++
        p.trace.map Step.act := by
  simp only [Server.main_iteration, hrs] at h
  split at h
  · injection h with h; subst h; simp [Step.is_exit, Action.is_exit] at hx
  · split at h
    · injection h with h; subst h
      simp [Server.control_steps, Step.is_exit, Action.is_exit] at hx
    · split at h
      · injection h with h; subst h
        simp [Server.control_steps, Step.is_exit, Action.is_exit] at hx
      · split at h
        · cases h
        · rename_i p hp
          injection h with h
          subst h
          refine ⟨p, hp, ?_, rfl⟩
          simp only [List.any_append, any_is_exit_map_act, Bool.or_eq_false_iff] at hx
          exact hx.2

theorem client_main_trace (fuel : Nat) (m : MainEnv) (argv2 : List Nat) (files : Files)
    (tr : List Step) (h : Client.main fuel m argv2 files = some tr)
    (hx : tr.any Step.is_exit = false) :
    ∃ r ack p, Client.process_request fuel m.env ack files = some p ∧
      p.trace.any Action.is_exit = false ∧
      tr = Client.control_steps r ++
        [.socket .data true, .setsockopt .data true,
         .bind .data CLIENT_DATA_CHANNEL_PORT true] ++
        p.trace.map Step.act ++ [.act (.close .data)] := by
  simp only [Client.main] at h
  split at h
  · injection h with h; subst h; simp [Step.is_exit, Action.is_exit] at hx
  · split at h
    · injection h with h; subst h; simp [Step.is_exit, Action.is_exit] at hx
    · split at h
      · injection h with h; subst h; simp [Step.is_exit, Action.is_exit] at hx
      · split at h
        · injection h with h; subst h; simp [Step.is_exit, Action.is_exit] at hx
        · split at h
          · injection h with h; subst h; simp [Step.is_exit, Action.is_exit] at hx
          · split at h
            · cases h
            · rename_i r _
              split at h
              · cases h
              · rename_i rc _
                split at h
                · injection h with h; subst h
                  simp [Step.is_exit, Action.is_exit] at hx
                · split at h
                  · injection h with h; subst h
                    simp [Step.is_exit, Action.is_exit] at hx
                  · split at h
                    · injection h with h; subst h
                      simp [Step.is_exit, Action.is_exit] at hx
                    · split at h
                      · cases h
                      · rename_i p hp
                        injection h with h
                        subst h
                        have hp' : p.trace.any Action.is_exit = false := by
                          simp only [List.any_append, any_is_exit_map_act,
                            Bool.or_eq_false_iff] at hx
                          exact hx.1.2
                        refine ⟨r, rc.ack_request, p, hp, hp', ?_⟩
                        simp [hp']

theorem open_after_server_control : open_after [.control_listener] Server.control_steps =
    [.control_listener] := by decide

theorem open_after_client_control (r : Retry) : open_after [] (Client.control_steps r) = [] := by
  simp only [Client.control_steps, open_after_append, open_after_retry]
  decide

/-- Claim C12 (session teardown), evaluated on the code. At the end of a turn
of the server's loop that did not end the process: when the frame received
compares equal to `GET` or to `SEND`, only the control listener is open;
when it compares equal to neither, `process_request` does nothing and the
data-channel socket that `init_server_data_channel` created is still open
next to the listener. At the end of a run of the client's `main` that did
not end in `exit`, whatever frame was acknowledged, no socket is open. -/
theorem teardown_misses_data_socket_on_unknown_frame (fuel : Nat) (m : MainEnv) (files : Files)
    (tr : List Step) (rs : ServerAck)
    (h : Server.main_iteration fuel m files = some tr) (hx : tr.any Step.is_exit = false)
    (hrs : receive_client_request fuel m.ack_request m.control_in = .returned rs) :
    (strcmp rs.ack_request GET_COMMAND_NAME = 0 ∨ strcmp rs.ack_request SEND_COMMAND_NAME = 0 →
      open_after [.control_listener] tr = [.control_listener]) ∧
    (strcmp rs.ack_request GET_COMMAND_NAME ≠ 0 ∧ strcmp rs.ack_request SEND_COMMAND_NAME ≠ 0 →
      open_after [.control_listener] tr = [.control_listener, .data]) ∧
    (∀ (cm : MainEnv) (argv2 : List Nat) (cfiles : Files) (ctr : List Step),
      Client.main fuel cm argv2 cfiles = some ctr → ctr.any Step.is_exit = false →
      open_after [] ctr = []) := by
  obtain ⟨p, hp, hpx, rfl⟩ := server_iteration_trace fuel m files tr rs h hx hrs
  have hcases := server_trace_cases fuel m.env rs.ack_request _ files p hp
  rw [hpx] at hcases
  simp only [Bool.false_eq_true, false_or] at hcases
  refine ⟨?_, ?_, ?_⟩
  · intro hrec
    rcases hcases with ⟨_, r, htr⟩ | ⟨_, _, htr⟩ | ⟨hg, hs, _⟩
    · rw [htr]
      simp only [open_after_append, List.map_append, open_after_server_control, open_after_retry]
      decide
    · rw [htr]
      simp only [open_after_append, open_after_server_control]
      decide
    · rcases hrec with h1 | h1
      · exact absurd h1 hg
      · exact absurd h1 hs
  · intro hun
    rcases hcases with ⟨hg, _⟩ | ⟨_, hs, _⟩ | ⟨_, _, htr⟩
    · exact absurd hg hun.1
    · exact absurd hs hun.2
    · rw [htr]
      simp only [open_after_append, open_after_server_control]
      decide
  · intro cm argv2 cfiles ctr hc hcx
    obtain ⟨r, ack, q, hq, hqx, rfl⟩ := client_main_trace fuel cm argv2 cfiles ctr hc hcx
    have hc2 := client_trace_cases fuel cm.env ack cfiles q hq
    rw [hqx] at hc2
    simp only [Bool.false_eq_true, false_or] at hc2
    rcases hc2 with ⟨r2, htr⟩ | htr | htr
    · rw [htr]
      simp only [open_after_append, List.map_append, open_after_client_control, open_after_retry]
      decide
    · rw [htr]
      simp only [open_after_append, open_after_client_control]
      decide
    · rw [htr]
      simp only [open_after_append, open_after_client_control]
      decide

set_option maxRecDepth 100000 in
theorem teardown_misses_data_socket_on_unknown_frame_witness :
    Server.main_iteration 1 (quiet [.seg put_request]) server_dir =
      some (Server.control_steps ++ [.socket .data true, .bind .data 7006 true]) ∧
    (Server.control_steps ++ [Step.socket .data true, Step.bind .data 7006 true]).any
      Step.is_exit = false ∧
    receive_client_request 1 (quiet [.seg put_request]).ack_request
      (quiet [.seg put_request]).control_in =
      .returned { ack_request := put_request, sent := put_request,
                  calls := [⟨0, (REQ_BUFLEN : Int), 80⟩], oob := false, closed := true } ∧
    strcmp put_request GET_COMMAND_NAME ≠ 0 ∧ strcmp put_request SEND_COMMAND_NAME ≠ 0 ∧
    open_after [.control_listener]
      (Server.control_steps ++ [Step.socket .data true, Step.bind .data 7006 true]) =
      [.control_listener, .data] :=
  ⟨rfl, by decide, rfl, by decide, by decide,
    (teardown_misses_data_socket_on_unknown_frame 1 (quiet [.seg put_request]) server_dir
      (Server.control_steps ++ [Step.socket .data true, Step.bind .data 7006 true])
      { ack_request := put_request, sent := put_request,
        calls := [⟨0, (REQ_BUFLEN : Int), 80⟩], oob := false, closed := true }
      rfl (by decide) rfl).2.1 ⟨by decide, by decide⟩⟩

/-! ### The two roles of a transfer -/

theorem retry_actions_returned (s : Socket) (port k : Nat) :
    retry_actions s port
        { attempts := k + 1
          sleeps := (List.range k).map fun (i : Nat) => ((1 + (i : Int)) % 4294967296).toNat
          sleep_time := int32 (1 + (k : Int))
          interval := 1 } =
      ((List.range k).map fun (i : Nat) =>
        [Action.connect s port false, Action.sleep ((i + 1) % 4294967296)]).flatten ++
        [Action.connect s port true] := by
  simp only [retry_actions, List.map_map]
  congr 2
  apply List.map_congr_left
  intro i _
  have : ((1 + (i : Int)) % 4294967296).toNat = (i + 1) % 4294967296 := by omega
  simp only [Function.comp, this]

theorem send_file_spec_wire (send_ok : Nat → Bool) (hok : ∀ i, send_ok i = true)
    (file : List Nat) : send_file send_ok file = .returned ⟨spec_wire file, false⟩ := by
  have h := (send_file_loop_chunks send_ok hok (file.length + 1) file.length
    { data := List.replicate FILE_BUFLEN 0, fp := file, wire := [] } rfl (Nat.lt_succ_self _)
    (le_refl _)).1
  simpa [send_file, spec_wire] using h

theorem write_file_spec_wire (file : List Nat) (h0 : 0 ∉ file) (buffer : List Nat)
    (hbuf : buffer.length = FILE_BUFLEN) (fuel : Nat) (hfuel : file.length < fuel) :
    ∃ w, write_file fuel buffer (deliver (spec_wire file)) = .returned w ∧ w.file = file := by
  obtain ⟨s, h1, _, h3, h4⟩ := transfer_aligned (fun _ => true) (fun _ => rfl) file h0 buffer hbuf
  rw [send_file_spec_wire (fun _ => true) (fun _ => rfl) file] at h1
  injection h1 with h1
  subst h1
  obtain ⟨w, g1, g2, _⟩ := h4 fuel (by simp only at h3 ⊢; omega)
  exact ⟨w, g1, g2⟩

theorem late_cooperates (k : Nat) (incoming : Sock) : (late k incoming).cooperates k :=
  ⟨fun i hi => decide_eq_false (show ¬ k ≤ i by omega), decide_eq_true (le_refl k), rfl, rfl,
    fun _ => rfl, List.length_replicate 1024 7⟩

/-- Claim C5 (role asymmetry). With every call succeeding after `ks` (server)
and `kc` (client) refused calls of `connect`: on a frame that compares equal
to `GET` the server's `process_request` calls `connect` on its data socket to
port 4612, `ks` times in vain with a `sleep` after each and once with
success, opens `get.txt`, sends it as its 1024-byte blocks and closes, and
calls neither `listen` nor `accept`; the client's calls `listen` and
`accept`, receives into `get.txt` and closes, and never calls `connect`; and
when the server's blocks are what arrives at the client, one block a `recv`,
and `get.txt` holds no zero byte, the client ends with the server's `get.txt`
in its own. On a frame that compares equal to `SEND` the same holds with the
peers exchanged, port 7006 and `send.txt`. And in every environment, on every
frame, no run of either `process_request` holds both a `connect` and a
`listen` or `accept`. -/
theorem role_asymmetry (get_frame send_frame : List Nat) (senv cenv : Env)
    (sfiles cfiles : Files) (get_txt send_txt : List Nat) (ks kc fuel : Nat)
    (hg : strcmp get_frame GET_COMMAND_NAME = 0) (hsd : strcmp send_frame SEND_COMMAND_NAME = 0)
    (hs : senv.cooperates ks) (hc : cenv.cooperates kc)
    (hget : sfiles GET_FILE_NAME = some get_txt) (hsend : cfiles SEND_FILE_NAME = some send_txt)
    (hks : ks < fuel) (hkc : kc < fuel)
    (hsi : sock_size senv.incoming < fuel) (hci : sock_size cenv.incoming < fuel) :
    (∃ ps pc,
      Server.main_process_request fuel senv get_frame sfiles = some ps ∧
      ps.trace =
        ((List.range ks).map fun (i : Nat) =>
          [Action.connect .data 4612 false, Action.sleep ((i + 1) % 4294967296)]).flatten ++
        [Action.connect .data 4612 true, Action.fopen GET_FILE_NAME "r" true,
         Action.send_file .data, Action.close .data] ∧
      ps.wire = spec_wire get_txt ∧ ps.files = sfiles ∧
      Client.process_request fuel cenv get_frame cfiles = some pc ∧
      pc.trace =
        [Action.listen .data 5 true, Action.accept .data true,
         Action.fopen GET_FILE_NAME "w" true, Action.write_file .data_conn,
         Action.close .data_conn, Action.close .data] ∧
      pc.wire = [] ∧
      (0 ∉ get_txt → get_txt.length < fuel →
        Client.process_request fuel { cenv with incoming := deliver ps.wire } get_frame cfiles =
          some { trace := pc.trace, files := cfiles.write GET_FILE_NAME get_txt, wire := [] })) ∧
    (∃ pc ps,
      Client.process_request fuel cenv send_frame cfiles = some pc ∧
      pc.trace =
        ((List.range kc).map fun (i : Nat) =>
          [Action.connect .data 7006 false, Action.sleep ((i + 1) % 4294967296)]).flatten ++
        [Action.connect .data 7006 true, Action.fopen SEND_FILE_NAME "r" true,
         Action.send_file .data, Action.close .data] ∧
      pc.wire = spec_wire send_txt ∧ pc.files = cfiles ∧
      Server.main_process_request fuel senv send_frame sfiles = some ps ∧
      ps.trace =
        [Action.listen .data 5 true, Action.accept .data true,
         Action.fopen SEND_FILE_NAME "w" true, Action.write_file .data_conn,
         Action.close .data_conn, Action.close .data] ∧
      ps.wire = [] ∧
      (0 ∉ send_txt → send_txt.length < fuel →
        Server.main_process_request fuel { senv with incoming := deliver pc.wire } send_frame
            sfiles =
          some { trace := ps.trace, files := sfiles.write SEND_FILE_NAME send_txt,
                 wire := [] })) ∧
    (∀ (frame : List Nat) (env : Env) (n : Nat) (files : Files) (p : Proc),
      Server.main_process_request n env frame files = some p ∨
        Client.process_request n env frame files = some p →
      (p.trace.any Action.is_connect && p.trace.any Action.is_passive) = false) := by
  obtain ⟨hsf, hsk, hsl, hsa, hss, hsb⟩ := hs
  obtain ⟨hcf, hck, hcl, hca, hcs, hcb⟩ := hc
  refine ⟨?_, ?_, ?_⟩
  · obtain ⟨w, hw⟩ := write_file_loop_returns fuel
      { buffer := cenv.buffer, n := 0, sock := cenv.incoming, file := [], log := [],
        overrun := false } hci
    have hsrv := server_process_request_get fuel senv get_frame CLIENT_DATA_CHANNEL_PORT sfiles
      get_txt _ _ hg hget (connect_with_retry_returns senv.connect ks fuel hsf hsk hks)
      (send_file_spec_wire senv.send_ok hss get_txt) rfl
    rw [retry_actions_returned, List.append_assoc] at hsrv
    refine ⟨_, _, hsrv, rfl, rfl, rfl,
      client_process_request_get fuel cenv get_frame cfiles w hg hcl hca hw, rfl, rfl, ?_⟩
    intro h0 hlen
    obtain ⟨w1, hw1, hf⟩ := write_file_spec_wire get_txt h0 cenv.buffer hcb fuel hlen
    have hcli := client_process_request_get fuel
      { cenv with incoming := deliver (spec_wire get_txt) } get_frame cfiles w1 hg hcl hca hw1
    rw [hf] at hcli
    exact hcli
  · obtain ⟨w, hw⟩ := write_file_loop_returns fuel
      { buffer := senv.buffer, n := 0, sock := senv.incoming, file := [], log := [],
        overrun := false } hsi
    have hcli := client_process_request_send fuel cenv send_frame cfiles send_txt _ _ hsd hsend
      (connect_with_retry_returns cenv.connect kc fuel hcf hck hkc)
      (send_file_spec_wire cenv.send_ok hcs send_txt) rfl
    rw [retry_actions_returned, List.append_assoc] at hcli
    refine ⟨_, _, hcli, rfl, rfl, rfl,
      server_process_request_send fuel senv send_frame _ sfiles w hsd hsl hsa hw, rfl, rfl, ?_⟩
    intro h0 hlen
    obtain ⟨w1, hw1, hf⟩ := write_file_spec_wire send_txt h0 senv.buffer hsb fuel hlen
    have hsrv := server_process_request_send fuel
      { senv with incoming := deliver (spec_wire send_txt) } send_frame
      CLIENT_DATA_CHANNEL_PORT sfiles w1 hsd hsl hsa hw1
    rw [hf] at hsrv
    exact hsrv
  · intro frame env n files p h
    rcases h with h | h
    · exact server_roles_apart n env frame _ files p h
    · exact client_roles_apart n env frame files p h

set_option maxRecDepth 100000 in
theorem role_asymmetry_witness :
    strcmp get_request GET_COMMAND_NAME = 0 ∧
    strcmp send_request_frame SEND_COMMAND_NAME = 0 ∧
    (late 2 []).cooperates 2 ∧ (late 1 []).cooperates 1 ∧
    server_dir GET_FILE_NAME = some [98, 10] ∧ client_dir SEND_FILE_NAME = some [97, 10] ∧
    2 < 3 ∧ 1 < 3 ∧ sock_size (late 2 []).incoming < 3 ∧ sock_size (late 1 []).incoming < 3 ∧
    (∃ ps pc,
      Server.main_process_request 3 (late 2 []) get_request server_dir = some ps ∧
      ps.trace =
        [Action.connect .data 4612 false, Action.sleep 1, Action.connect .data 4612 false,
         Action.sleep 2, Action.connect .data 4612 true, Action.fopen GET_FILE_NAME "r" true,
         Action.send_file .data, Action.close .data] ∧
      ps.wire = spec_wire [98, 10] ∧
      Client.process_request 3 { late 1 [] with incoming := deliver ps.wire } get_request
          client_dir = some pc ∧
      pc.trace =
        [Action.listen .data 5 true, Action.accept .data true,
         Action.fopen GET_FILE_NAME "w" true, Action.write_file .data_conn,
         Action.close .data_conn, Action.close .data] ∧
      pc.files GET_FILE_NAME = some [98, 10]) ∧
    (∃ pc ps,
      Client.process_request 3 (late 1 []) send_request_frame client_dir = some pc ∧
      pc.trace =
        [Action.connect .data 7006 false, Action.sleep 1, Action.connect .data 7006 true,
         Action.fopen SEND_FILE_NAME "r" true, Action.send_file .data, Action.close .data] ∧
      pc.wire = spec_wire [97, 10] ∧
      Server.main_process_request 3 { late 2 [] with incoming := deliver pc.wire }
          send_request_frame server_dir = some ps ∧
      ps.trace =
        [Action.listen .data 5 true, Action.accept .data true,
         Action.fopen SEND_FILE_NAME "w" true, Action.write_file .data_conn,
         Action.close .data_conn, Action.close .data] ∧
      ps.files SEND_FILE_NAME = some [97, 10]) := by
  obtain ⟨⟨ps, pc, a1, a2, a3, _, _, a6, _, a8⟩, ⟨qc, qs, b1, b2, b3, _, _, b6, _, b8⟩, _⟩ :=
    role_asymmetry get_request send_request_frame (late 2 []) (late 1 []) server_dir client_dir
      [98, 10] [97, 10] 2 1 3 (by decide) (by decide) (late_cooperates 2 [])
      (late_cooperates 1 []) (by decide) (by decide) (by decide) (by decide) (by decide)
      (by decide)
  refine ⟨by decide, by decide, late_cooperates 2 [], late_cooperates 1 [], by decide,
    by decide, by decide, by decide, by decide, by decide,
    ⟨ps, _, a1, a2.trans rfl, a3, a8 (by decide) (by decide), a6, rfl⟩,
    ⟨qc, _, b1, b2.trans rfl, b3, b8 (by decide) (by decide), b6, rfl⟩⟩

end EchoTcp
